import Mathlib

/-! RyansUE4Helpers: a verification development.

Shallow embedding of the helper libraries of the plugin
(`RyRuntimeMathHelpers.cpp`, `RyRuntimeAnimationHelpers.cpp`,
`RyRuntimeObjectHelpers.cpp`) and theorems about them.

Conventions of the embedding:

* `float` is modelled by exact arithmetic.  The math helpers are written over
  an arbitrary linearly ordered field `K` with a floor function (so they can
  be run over `ℚ` and reasoned about over `ℝ`); the animation helpers use `ℚ`.
* Host-engine routines that are not part of the plugin (`FRotator::ClampAxis`,
  `FMath::Tan`, `USkeleton::IsCompatible`, ...) are either modelled from their
  documented behaviour or taken as parameters; each such place is marked.
* Pointers are `Option`s, `INDEX_NONE` is `-1`, and a C++ fault (null
  dereference, failed array bound check) is an `Except.error`.
-/

set_option autoImplicit false

namespace Ry

/-! ## Math helpers (`RyRuntimeMathHelpers.cpp`) -/

section MathDefs

variable {K : Type} [LinearOrderedField K] [FloorRing K]

/-- Modelled from the spec: `FRotator::ClampAxis` is host-engine code that is
not in the plugin sources.  It maps an angle to the representative of its
class modulo 360 that lies in `[0, 360)`. -/
def ClampAxis (Angle : K) : K :=
  Angle - 360 * (⌊Angle / 360⌋ : ℤ)

/-- Modelled from the spec: `FRotator::NormalizeAxis` (reached through
`UKismetMathLibrary::NormalizeAxis`) is host-engine code; it clamps the angle
to `[0, 360)` and then moves the upper half down, giving `(-180, 180]`. -/
def NormalizeAxis (Angle : K) : K :=
  let a := ClampAxis Angle
  if a > 180 then a - 360 else a

/-- Modelled from the spec: `DegreesToRadians` of the host engine, with the
engine constant `PI` taken as a parameter. -/
def DegreesToRadians (PI : K) (Deg : K) : K :=
  Deg * (PI / 180)

/-- Modelled from the spec: `RadiansToDegrees` of the host engine, with the
engine constant `PI` taken as a parameter. -/
def RadiansToDegrees (PI : K) (Rad : K) : K :=
  Rad * (180 / PI)

/-- `URyRuntimeMathHelpers::ShortestRotationPath`. -/
def ShortestRotationPath (startRotation endRotation : K) : K :=
  let clampA := ClampAxis startRotation
  let clampB := ClampAxis endRotation
  let d :=
    if clampA > clampB then
      (clampA - clampB, (360 + clampB) - clampA)
    else
      ((360 + clampA) - clampB, clampB - clampA)
  if d.1 > d.2 then d.2 else -d.1

/-- Out-parameters `newRotation` and `atTarget` of `RotationInterpolate`. -/
structure RotationInterpolateResult (K : Type) where
  newRotation : K
  atTarget : Bool

/-- `URyRuntimeMathHelpers::RotationInterpolate`.  `RotationsEqual` is declared
outside the given sources and is taken as a parameter. -/
def RotationInterpolate (RotationsEqual : K → K → K → Bool)
    (inCurrent inTarget deltaTime speed checkTolerance : K) : RotationInterpolateResult K :=
  let clampCurrent := ClampAxis inCurrent
  let clampTarget := ClampAxis inTarget
  let pathTo := ShortestRotationPath clampCurrent clampTarget
  if |pathTo| ≤ checkTolerance then
    ⟨ClampAxis inTarget, true⟩
  else
    let dirToTarget : K := if pathTo < 0 then -1 else 1
    let movement := dirToTarget * speed * deltaTime
    if |movement| ≥ |pathTo| then
      ⟨clampTarget, true⟩
    else
      let newRotation := ClampAxis (clampCurrent + movement)
      let atTarget := RotationsEqual clampTarget newRotation checkTolerance
      if atTarget then ⟨clampTarget, atTarget⟩ else ⟨newRotation, atTarget⟩

/-- `FVector2D` of the host engine. -/
structure FVector2D (K : Type) where
  X : K
  Y : K

/-- `FVector` of the host engine. -/
structure FVector (K : Type) where
  X : K
  Y : K
  Z : K

/-- `FVector::DotProduct`. -/
def FVector.DotProduct (a b : FVector K) : K :=
  a.X * b.X + a.Y * b.Y + a.Z * b.Z

/-- The player character, as far as `FindScreenEdgeLocationForWorldLocation`
reads it. -/
structure ACharacter (K : Type) where
  ActorForwardVector : FVector K
  ActorLocation : FVector K

/-- What `FindScreenEdgeLocationForWorldLocation` reads from the host engine.
The engine routines it calls are fields of this record: they are parameters of
the embedding.  `ProjectWorldLocationToScreen` has an out-parameter, so it maps
the world location and the previous content of the out-parameter to its new
content (the engine may or may not write it). -/
structure ScreenContext (K : Type) where
  /-- Whether `GEngine` is set. -/
  GEngine : Bool
  /-- `GEngine->GameViewport->Viewport->GetSizeXY()`. -/
  ViewportSize : FVector2D K
  /-- Whether `GetWorldFromContextObject` found a world. -/
  World : Bool
  /-- Whether a player controller was found for the context object. -/
  PlayerController : Bool
  /-- The pawn of the controller cast to `ACharacter`, when that succeeds. -/
  PlayerCharacter : Option (ACharacter K)
  ProjectWorldLocationToScreen : FVector K → FVector2D K → FVector2D K
  GetSafeNormal : FVector K → FVector K
  Atan2 : K → K → K
  cosf : K → K
  sinf : K → K
  PI : K

/-- Out-parameters of `FindScreenEdgeLocationForWorldLocation`. -/
structure ScreenEdgeResult (K : Type) where
  OutScreenPosition : FVector2D K
  OutRotationAngleDegrees : K
  bIsOnScreen : Bool

/-- Lines 110-131 of `FindScreenEdgeLocationForWorldLocation`: the content of
`OutScreenPosition` when control reaches the projection of `InLocation`. -/
def behindCameraScreenPosition (ctx : ScreenContext K) (PlayerCharacter : ACharacter K)
    (InLocation : FVector K) (EdgePercent : K) (OutScreenPosition : FVector2D K) : FVector2D K :=
  let ViewportCenter : FVector2D K := ⟨ctx.ViewportSize.X / 2, ctx.ViewportSize.Y / 2⟩
  let Forward := PlayerCharacter.ActorForwardVector
  let Loc := PlayerCharacter.ActorLocation
  let Offset := ctx.GetSafeNormal ⟨InLocation.X - Loc.X, InLocation.Y - Loc.Y, InLocation.Z - Loc.Z⟩
  let DotProduct := FVector.DotProduct Forward Offset
  let bLocationIsBehindCamera : Bool := decide (DotProduct < 0)
  if bLocationIsBehindCamera then
    let DiffVector : FVector K := ⟨InLocation.X - Loc.X, InLocation.Y - Loc.Y, InLocation.Z - Loc.Z⟩
    let Inverted : FVector K := ⟨DiffVector.X * -1, DiffVector.Y * -1, DiffVector.Z * -1⟩
    let NewInLocation : FVector K := ⟨Loc.X * Inverted.X, Loc.Y * Inverted.Y, Loc.Z * Inverted.Z⟩
    let NewInLocation : FVector K := { NewInLocation with Z := NewInLocation.Z - 5000 }
    let OutScreenPosition := ctx.ProjectWorldLocationToScreen NewInLocation OutScreenPosition
    let OutScreenPosition : FVector2D K :=
      { OutScreenPosition with Y := (EdgePercent * ViewportCenter.X) * 2 }
    { OutScreenPosition with X := -ViewportCenter.X - OutScreenPosition.X }
  else
    OutScreenPosition

/-- Lines 135-178 of `FindScreenEdgeLocationForWorldLocation`: the on-screen
test and the clamping to the edge box, from the projected position.  Division
is the division of the field, which is total (`x / 0 = 0`). -/
def clampToScreenEdge (ctx : ScreenContext K) (EdgePercent : K)
    (OutScreenPosition : FVector2D K) : ScreenEdgeResult K :=
  let ViewportSize := ctx.ViewportSize
  let ViewportCenter : FVector2D K := ⟨ViewportSize.X / 2, ViewportSize.Y / 2⟩
  if OutScreenPosition.X ≥ 0 ∧ OutScreenPosition.X ≤ ViewportSize.X
      ∧ OutScreenPosition.Y ≥ 0 ∧ OutScreenPosition.Y ≤ ViewportSize.Y then
    ⟨OutScreenPosition, 0, true⟩
  else
    let OutScreenPosition : FVector2D K :=
      ⟨OutScreenPosition.X - ViewportCenter.X, OutScreenPosition.Y - ViewportCenter.Y⟩
    let AngleRadians := ctx.Atan2 OutScreenPosition.Y OutScreenPosition.X
    let AngleRadians := AngleRadians - DegreesToRadians ctx.PI 90
    let OutRotationAngleDegrees := RadiansToDegrees ctx.PI AngleRadians + 180
    let Cos := ctx.cosf AngleRadians
    let Sin := -ctx.sinf AngleRadians
    -- the assignment of line 154 is overwritten on both branches below
    let m := Cos / Sin
    let ScreenBounds : FVector2D K := ⟨ViewportCenter.X * EdgePercent, ViewportCenter.Y * EdgePercent⟩
    let OutScreenPosition : FVector2D K :=
      if Cos > 0 then ⟨ScreenBounds.Y / m, ScreenBounds.Y⟩
      else ⟨-ScreenBounds.Y / m, -ScreenBounds.Y⟩
    let OutScreenPosition : FVector2D K :=
      if OutScreenPosition.X > ScreenBounds.X then ⟨ScreenBounds.X, ScreenBounds.X * m⟩
      else if OutScreenPosition.X < -ScreenBounds.X then ⟨-ScreenBounds.X, -ScreenBounds.X * m⟩
      else OutScreenPosition
    ⟨⟨OutScreenPosition.X + ViewportCenter.X, OutScreenPosition.Y + ViewportCenter.Y⟩,
      OutRotationAngleDegrees, false⟩

/-- `URyRuntimeMathHelpers::FindScreenEdgeLocationForWorldLocation`.  The last
argument is the content of the out-parameter `OutScreenPosition` on entry; the
early returns leave it as it is. -/
def FindScreenEdgeLocationForWorldLocation (ctx : ScreenContext K) (InLocation : FVector K)
    (EdgePercent : K) (OutScreenPosition : FVector2D K) : ScreenEdgeResult K :=
  if !ctx.GEngine then ⟨OutScreenPosition, 0, false⟩
  else if !ctx.World then ⟨OutScreenPosition, 0, false⟩
  else if !ctx.PlayerController then ⟨OutScreenPosition, 0, false⟩
  else
    match ctx.PlayerCharacter with
    | none => ⟨OutScreenPosition, 0, false⟩
    | some PlayerCharacter =>
      let OutScreenPosition :=
        behindCameraScreenPosition ctx PlayerCharacter InLocation EdgePercent OutScreenPosition
      let OutScreenPosition := ctx.ProjectWorldLocationToScreen InLocation OutScreenPosition
      clampToScreenEdge ctx EdgePercent OutScreenPosition

/-- `URyRuntimeMathHelpers::FindEdgeOf2DSquare`.  The engine constant `PI` and
the engine routine `FMath::Tan` are parameters. -/
def FindEdgeOf2DSquare (PI : K) (Tan : K → K) (TheSize : FVector2D K) (TheAngle : K) :
    FVector2D K :=
  let LocalAngle := NormalizeAxis (TheAngle + 90)
  let LocalRadian := DegreesToRadians PI LocalAngle
  let LocalRadian := if LocalRadian < 0 then LocalRadian + PI * 2 else LocalRadian
  let LocalTangent := Tan LocalRadian
  let LocalXRadius := TheSize.X / 2
  let LocalYRadius := TheSize.Y / 2
  let LocalY := LocalXRadius * LocalTangent
  let LocalPointRelativeToCenter : FVector2D K :=
    if |LocalY| ≤ LocalYRadius then
      if LocalRadian < PI / 2 ∨ LocalRadian > PI + PI / 2 then
        ⟨LocalXRadius, LocalY⟩
      else
        ⟨LocalXRadius * -1, LocalY * -1⟩
    else
      let LocalX := LocalYRadius / LocalTangent
      if LocalRadian < PI then
        ⟨LocalX, LocalYRadius⟩
      else
        ⟨LocalX * -1, LocalYRadius * -1⟩
  ⟨TheSize.X / 2 + LocalPointRelativeToCenter.X, TheSize.Y / 2 + LocalPointRelativeToCenter.Y⟩

end MathDefs

/-! ## Animation helpers (`RyRuntimeAnimationHelpers.cpp`): data model -/

/-- `FName` of the host engine, modelled by the string it was made from
(names are taken as already normalised for the engine's case-insensitive
comparison). -/
abbrev FName := String

/-- `NAME_None`. -/
def NAME_None : FName := "None"

/-- `INDEX_NONE`. -/
def INDEX_NONE : Int := -1

/-- The ways a call can fail instead of returning. -/
inductive Fault where
  /-- A member is read through a null pointer. -/
  | nullDereference
  /-- `TArray::operator[]` is used with an index outside the array. -/
  | indexOutOfBounds
  deriving DecidableEq, Repr

/-- `TArray::IsValidIndex` for an `int32` index. -/
def IsValidIndex {α : Type} (xs : List α) (Index : Int) : Prop :=
  0 ≤ Index ∧ Index < (xs.length : Int)

instance {α : Type} (xs : List α) (Index : Int) : Decidable (IsValidIndex xs Index) := by
  unfold IsValidIndex; exact inferInstance

/-- `TArray::operator[]` for an `int32` index: a fault outside the array. -/
def arrayAt {α : Type} (xs : List α) (Index : Int) : Except Fault α :=
  if 0 ≤ Index then
    match xs[Index.toNat]? with
    | some x => .ok x
    | none => .error Fault.indexOutOfBounds
  else .error Fault.indexOutOfBounds

/-- `USkeleton`, identified by an object id. -/
structure USkeleton where
  id : Nat
  deriving DecidableEq, Repr

/-- `UAnimSequence`, as far as the helpers read it. -/
structure UAnimSequence where
  Skeleton : Option USkeleton
  SequenceLength : ℚ
  deriving DecidableEq

/-- `FAnimSegment`. -/
structure FAnimSegment where
  AnimReference : Option UAnimSequence
  StartPos : ℚ
  AnimStartTime : ℚ
  AnimEndTime : ℚ
  AnimPlayRate : ℚ
  LoopingCount : Int
  deriving DecidableEq

/-- Modelled from the spec: the default-constructed `FAnimSegment` of the host
engine (what `AddDefaulted_GetRef` appends). -/
def FAnimSegment.defaulted : FAnimSegment :=
  { AnimReference := none, StartPos := 0, AnimStartTime := 0, AnimEndTime := 0,
    AnimPlayRate := 1, LoopingCount := 1 }

/-- `FAnimTrack`. -/
structure FAnimTrack where
  AnimSegments : List FAnimSegment
  deriving DecidableEq

/-- `FSlotAnimationTrack`. -/
structure FSlotAnimationTrack where
  SlotName : FName
  AnimTrack : FAnimTrack
  deriving DecidableEq

/-- `EAnimLinkMethod`. -/
inductive EAnimLinkMethod where
  | Absolute
  | Relative
  | Proportional
  deriving DecidableEq, Repr

/-- `FCompositeSection`.  `StartTime` is the montage time of the section, the
value `GetTime()` returns. -/
structure FCompositeSection where
  SectionName : FName
  NextSectionName : FName
  StartTime : ℚ
  LinkMethod : EAnimLinkMethod
  deriving DecidableEq

/-- Modelled from the spec: the default-constructed `FCompositeSection` of the
host engine. -/
def FCompositeSection.defaulted : FCompositeSection :=
  { SectionName := NAME_None, NextSectionName := NAME_None, StartTime := 0,
    LinkMethod := EAnimLinkMethod.Absolute }

/-- Modelled from the spec: `FAnimLinkableElement::LinkMontage` of the host
engine places the section at the given montage time. -/
def FCompositeSection.LinkMontage (s : FCompositeSection) (StartTime : ℚ) : FCompositeSection :=
  { s with StartTime := StartTime }

/-- Modelled from the spec: `FAnimLinkableElement::ChangeLinkMethod` of the host
engine changes how the position is stored and keeps the montage time. -/
def FCompositeSection.ChangeLinkMethod (s : FCompositeSection) (NewLinkMethod : EAnimLinkMethod) :
    FCompositeSection :=
  { s with LinkMethod := NewLinkMethod }

/-- `FAlphaBlend` of the host engine, reduced to its blend time: `SetBlendTime`
stores the time it is given and `GetBlendTime` returns the stored time. -/
structure FAlphaBlend where
  BlendTime : ℚ
  deriving DecidableEq

/-- `FAlphaBlend::SetBlendTime`. -/
def FAlphaBlend.SetBlendTime (_b : FAlphaBlend) (InBlendTime : ℚ) : FAlphaBlend :=
  { BlendTime := InBlendTime }

/-- `FAlphaBlend::GetBlendTime`. -/
def FAlphaBlend.GetBlendTime (b : FAlphaBlend) : ℚ :=
  b.BlendTime

/-- `UAnimMetaData`, identified by its class and object name. -/
structure UAnimMetaData where
  Class : String
  Name : String
  deriving DecidableEq

/-- `UAnimMontage`, as far as the helpers read and write it. -/
structure UAnimMontage where
  Skeleton : Option USkeleton
  MetaData : List (Option UAnimMetaData)
  SlotAnimTracks : List FSlotAnimationTrack
  CompositeSections : List FCompositeSection
  SequenceLength : ℚ
  RateScale : ℚ
  BlendIn : FAlphaBlend
  BlendOut : FAlphaBlend
  BlendOutTriggerTime : ℚ
  bEnableAutoBlendOut : Bool
  deriving DecidableEq

/-- Modelled from the spec: the montage that `NewObject<UAnimMontage>` of the
host engine returns: one slot track with the default slot name and no segments,
no sections, default blend settings. -/
def UAnimMontage.constructed : UAnimMontage :=
  { Skeleton := none
    MetaData := []
    SlotAnimTracks := [{ SlotName := "DefaultSlot", AnimTrack := { AnimSegments := [] } }]
    CompositeSections := []
    SequenceLength := 0
    RateScale := 1
    BlendIn := { BlendTime := 1 / 4 }
    BlendOut := { BlendTime := 1 / 4 }
    BlendOutTriggerTime := -1
    bEnableAutoBlendOut := true }

/-- Modelled from the spec: `UAnimMontage::GetSectionIndex` of the host engine:
the index of the first section with the given name, `INDEX_NONE` without one. -/
def UAnimMontage.GetSectionIndex (M : UAnimMontage) (InSectionName : FName) : Int :=
  let i := M.CompositeSections.findIdx (fun s => s.SectionName == InSectionName)
  if i < M.CompositeSections.length then (i : Int) else INDEX_NONE

/-- Modelled from the spec: `UAnimMontage::IsValidSectionIndex` of the host
engine. -/
def UAnimMontage.IsValidSectionIndex (M : UAnimMontage) (SectionIndex : Int) : Prop :=
  IsValidIndex M.CompositeSections SectionIndex

instance (M : UAnimMontage) (SectionIndex : Int) : Decidable (M.IsValidSectionIndex SectionIndex) := by
  unfold UAnimMontage.IsValidSectionIndex; exact inferInstance

/-! ## Animation helpers: `CreateDynamicMontageFromMontage` -/

/-- The montage objects that are alive, addressed by their position: a
`UAnimMontage*` is `none` (null) or `some` address. -/
structure ObjectStore where
  montages : List UAnimMontage

/-- Read through a montage pointer; an address without an object is a fault. -/
def ObjectStore.deref (store : ObjectStore) (p : Nat) : Except Fault UAnimMontage :=
  match store.montages[p]? with
  | some M => .ok M
  | none => .error Fault.nullDereference

/-- Write through a montage pointer. -/
def ObjectStore.assign (store : ObjectStore) (p : Nat) (f : UAnimMontage → UAnimMontage) :
    ObjectStore :=
  { montages := store.montages.modify f p }

/-- `NewObject<UAnimMontage>(GetTransientPackage(), NAME_None, RF_Transient)`:
a fresh montage object and its address. -/
def ObjectStore.NewObject (store : ObjectStore) : ObjectStore × Nat :=
  ({ montages := store.montages ++ [UAnimMontage.constructed] }, store.montages.length)

/-- The copy loop over the meta data of the source montage: null entries are
skipped, every other entry is duplicated and added. -/
def copyMetaData (metaToCpy : List (Option UAnimMetaData)) (M : UAnimMontage) : UAnimMontage :=
  metaToCpy.foldl
    (fun M metaData =>
      match metaData with
      | none => M
      | some d => { M with MetaData := M.MetaData ++ [some d] })
    M

/-- `URyRuntimeAnimationHelpers::CreateDynamicMontageFromMontage`, run on the
store of montage objects; it returns the store after the call and the returned
pointer. -/
def CreateDynamicMontageFromMontage (store : ObjectStore) (MontageIn : Option Nat)
    (SlotOverride : FName) (OverrideBlendIn OverrideBlendOut OverrideBlendOutTriggerTime : ℚ) :
    Except Fault (ObjectStore × Option Nat) :=
  match MontageIn with
  | none => .ok (store, none)
  | some MontageIn => do
    let AssetSkeleton := (← store.deref MontageIn).Skeleton
    match AssetSkeleton with
    | none => .ok (store, none)
    | some AssetSkeleton =>
      let (store, NewMontage) := store.NewObject
      let store := store.assign NewMontage fun M => { M with Skeleton := some AssetSkeleton }
      let metaToCpy := (← store.deref MontageIn).MetaData
      let store := store.assign NewMontage (copyMetaData metaToCpy)
      let SlotAnimTracks := (← store.deref MontageIn).SlotAnimTracks
      let store := store.assign NewMontage fun M => { M with SlotAnimTracks := SlotAnimTracks }
      let CompositeSections := (← store.deref MontageIn).CompositeSections
      let store := store.assign NewMontage fun M => { M with CompositeSections := CompositeSections }
      let SequenceLength := (← store.deref MontageIn).SequenceLength
      let store := store.assign NewMontage fun M => { M with SequenceLength := SequenceLength }
      let RateScale := (← store.deref MontageIn).RateScale
      let store := store.assign NewMontage fun M => { M with RateScale := RateScale }
      let store ←
        if OverrideBlendIn ≠ -1 then
          pure (store.assign NewMontage fun M =>
            { M with BlendIn := M.BlendIn.SetBlendTime OverrideBlendIn })
        else do
          let t := (← store.deref MontageIn).BlendIn.GetBlendTime
          pure (store.assign NewMontage fun M => { M with BlendIn := M.BlendIn.SetBlendTime t })
      let store ←
        if OverrideBlendOut ≠ -1 then
          pure (store.assign NewMontage fun M =>
            { M with BlendOut := M.BlendOut.SetBlendTime OverrideBlendOut })
        else do
          let t := (← store.deref MontageIn).BlendOut.GetBlendTime
          pure (store.assign NewMontage fun M => { M with BlendOut := M.BlendOut.SetBlendTime t })
      let store ←
        if OverrideBlendOutTriggerTime ≠ -1 then
          pure (store.assign NewMontage fun M =>
            { M with BlendOutTriggerTime := OverrideBlendOutTriggerTime })
        else do
          let t := (← store.deref MontageIn).BlendOutTriggerTime
          pure (store.assign NewMontage fun M => { M with BlendOutTriggerTime := t })
      let store :=
        if SlotOverride ≠ NAME_None then
          store.assign NewMontage fun M =>
            { M with SlotAnimTracks :=
                M.SlotAnimTracks.map fun slotTrack => { slotTrack with SlotName := SlotOverride } }
        else store
      pure (store, some NewMontage)

/-! ## Animation helpers: `CreateDynamicMontageOfSequences` -/

/-- `AddAnimCompositeSection`: the montage after the call and the returned
index. -/
def AddAnimCompositeSection (NewMontage : UAnimMontage) (InSectionName : FName) (StartTime : ℚ) :
    UAnimMontage × Int :=
  let NewSection := FCompositeSection.defaulted
  let NewSection : FCompositeSection :=
    if InSectionName ≠ NAME_None then
      { NewSection with SectionName := InSectionName }
    else
      { NewSection with
        SectionName := "Section" ++ toString (NewMontage.CompositeSections.length + 1) }
  if NewMontage.GetSectionIndex InSectionName ≠ INDEX_NONE then
    (NewMontage, INDEX_NONE)
  else
    let NewSection := NewSection.LinkMontage StartTime
    let NewSectionIndex : Int := NewMontage.CompositeSections.length
    let CompositeSections := NewMontage.CompositeSections ++ [NewSection]
    let PrevSectionIndex := NewSectionIndex - 1
    let CompositeSections :=
      if IsValidIndex CompositeSections PrevSectionIndex then
        CompositeSections.modify
          (fun Prev =>
            if Prev.NextSectionName = NAME_None then
              { Prev with NextSectionName := InSectionName }
            else Prev)
          PrevSectionIndex.toNat
      else CompositeSections
    ({ NewMontage with CompositeSections := CompositeSections }, NewSectionIndex)

/-- The local state of the loop of `CreateDynamicMontageOfSequences`:
the montage under construction, `curTime` and `usedSections`. -/
structure SequencesLoopState where
  NewMontage : UAnimMontage
  curTime : ℚ
  usedSections : List FName

/-- Append a segment through `animTrack`, the reference to `SlotAnimTracks[0]`. -/
def addSegment (M : UAnimMontage) (animSegment : FAnimSegment) : UAnimMontage :=
  { M with
    SlotAnimTracks :=
      M.SlotAnimTracks.modify
        (fun animTrack =>
          { animTrack with
            AnimTrack := { AnimSegments := animTrack.AnimTrack.AnimSegments ++ [animSegment] } })
        0 }

/-- The `LoopingCount` given to the segment of the sequence at `sequenceIndex`. -/
def loopingCount (LoopTimes : List Int) (sequenceIndex : Nat) : Int :=
  match LoopTimes[sequenceIndex]? with
  | some n => max 1 n
  | none => 1

/-- One iteration of the loop of `CreateDynamicMontageOfSequences`, for the
element `sequence` at `sequenceIndex`.  `IsCompatible` is
`USkeleton::IsCompatible` of the host engine, a parameter. -/
def sequencesLoopBody (IsCompatible : USkeleton → Option USkeleton → Bool)
    (AssetSkeleton : USkeleton) (PerSequenceSectionNames : List FName) (LoopTimes : List Int)
    (sequenceIndex : Nat) (sequence : Option UAnimSequence) (st : SequencesLoopState) :
    Except Fault SequencesLoopState :=
  match sequence with
  | none => .ok st
  | some sequence =>
    if !IsCompatible AssetSkeleton sequence.Skeleton then .ok st
    else
      let animSegment : FAnimSegment :=
        { FAnimSegment.defaulted with
          AnimReference := some sequence
          StartPos := st.curTime
          AnimStartTime := 0
          AnimEndTime := sequence.SequenceLength
          AnimPlayRate := 1
          LoopingCount := loopingCount LoopTimes sequenceIndex }
      let NewMontage := addSegment st.NewMontage animSegment
      let sectioned : Except Fault (UAnimMontage × List FName) :=
        match PerSequenceSectionNames[sequenceIndex]? with
        | some SectionName =>
          if !st.usedSections.contains SectionName then
            let usedSections := SectionName :: st.usedSections
            let (NewMontage, sectionIndex) :=
              AddAnimCompositeSection NewMontage SectionName st.curTime
            match arrayAt NewMontage.CompositeSections sectionIndex with
            | .ok section_ =>
              .ok ({ NewMontage with
                      CompositeSections :=
                        NewMontage.CompositeSections.set sectionIndex.toNat
                          (section_.ChangeLinkMethod EAnimLinkMethod.Relative) },
                    usedSections)
            | .error e => .error e
          else .ok (NewMontage, st.usedSections)
        | none => .ok (NewMontage, st.usedSections)
      match sectioned with
      | .error e => .error e
      | .ok (NewMontage, usedSections) =>
        .ok { NewMontage := NewMontage
              curTime := st.curTime + sequence.SequenceLength * (animSegment.LoopingCount : ℚ)
              usedSections := usedSections }

/-- The loop of `CreateDynamicMontageOfSequences` over the elements from
`sequenceIndex` on. -/
def sequencesLoop (IsCompatible : USkeleton → Option USkeleton → Bool)
    (AssetSkeleton : USkeleton) (PerSequenceSectionNames : List FName) (LoopTimes : List Int) :
    List (Option UAnimSequence) → Nat → SequencesLoopState → Except Fault SequencesLoopState
  | [], _, st => .ok st
  | sequence :: rest, sequenceIndex, st =>
    match sequencesLoopBody IsCompatible AssetSkeleton PerSequenceSectionNames LoopTimes
        sequenceIndex sequence st with
    | .error e => .error e
    | .ok st => sequencesLoop IsCompatible AssetSkeleton PerSequenceSectionNames LoopTimes
        rest (sequenceIndex + 1) st

/-- `URyRuntimeAnimationHelpers::CreateDynamicMontageOfSequences`.  The result
is `.ok none` for a returned `nullptr`, `.ok (some M)` for a returned montage and
`.error` when the call faults. -/
def CreateDynamicMontageOfSequences (IsCompatible : USkeleton → Option USkeleton → Bool)
    (SequencesIn : List (Option UAnimSequence)) (PerSequenceSectionNames : List FName)
    (LoopTimes : List Int) (AnimSlot : FName) (BlendIn BlendOut BlendOutTriggerTime : ℚ)
    (EnableAutoBlendOut : Bool) : Except Fault (Option UAnimMontage) :=
  match SequencesIn with
  | [] => .ok none
  | first :: _ =>
    match first with
    | none => .error Fault.nullDereference
    | some first =>
      match first.Skeleton with
      | none => .ok none
      | some AssetSkeleton =>
        let NewMontage := UAnimMontage.constructed
        let NewMontage := { NewMontage with Skeleton := some AssetSkeleton }
        match arrayAt NewMontage.SlotAnimTracks 0 with
        | .error e => .error e
        | .ok _ =>
          let NewMontage :=
            if AnimSlot ≠ NAME_None then
              { NewMontage with
                SlotAnimTracks :=
                  NewMontage.SlotAnimTracks.modify
                    (fun animTrack => { animTrack with SlotName := AnimSlot }) 0 }
            else NewMontage
          match sequencesLoop IsCompatible AssetSkeleton PerSequenceSectionNames LoopTimes
              SequencesIn 0 { NewMontage := NewMontage, curTime := 0, usedSections := [] } with
          | .error e => .error e
          | .ok st =>
            let NewMontage := st.NewMontage
            let NewMontage := { NewMontage with BlendIn := NewMontage.BlendIn.SetBlendTime BlendIn }
            let NewMontage := { NewMontage with BlendOut := NewMontage.BlendOut.SetBlendTime BlendOut }
            let NewMontage := { NewMontage with BlendOutTriggerTime := BlendOutTriggerTime }
            let NewMontage := { NewMontage with bEnableAutoBlendOut := EnableAutoBlendOut }
            let NewMontage := { NewMontage with SequenceLength := st.curTime }
            let NewMontage := { NewMontage with RateScale := 1 }
            .ok (some NewMontage)

/-! ## Animation helpers: section queries -/

/-- Modelled from the spec: `UAnimMontage::GetAnimCompositeSection` of the host
engine: the section at the index, which has to be a valid one. -/
def UAnimMontage.GetAnimCompositeSection (M : UAnimMontage) (SectionIndex : Int) :
    Except Fault FCompositeSection :=
  arrayAt M.CompositeSections SectionIndex

/-- `URyRuntimeAnimationHelpers::GetMontageSectionTimeLeftFromPos`. -/
def GetMontageSectionTimeLeftFromPos (MontageIn : Option UAnimMontage) (SectionName : FName)
    (Position : ℚ) : Except Fault ℚ :=
  match MontageIn with
  | none => .ok 0
  | some MontageIn =>
    let SectionID := MontageIn.GetSectionIndex SectionName
    if SectionID = INDEX_NONE then .ok 0
    else if MontageIn.IsValidSectionIndex (SectionID + 1) then do
      let next ← MontageIn.GetAnimCompositeSection (SectionID + 1)
      pure (max 0 (next.StartTime - Position))
    else
      .ok (max 0 (MontageIn.SequenceLength - Position))

/-! ## Object helpers (`RyRuntimeObjectHelpers.cpp`): the package-load latent action -/

/-- `EAsyncLoadingResult::Type` of the host engine. -/
inductive EAsyncLoadingResult where
  | Succeeded
  | Failed
  | Canceled
  deriving DecidableEq, Repr

/-- `UPackage`, identified by its name. -/
structure UPackage where
  Name : String
  deriving DecidableEq, Repr

/-- `FLatentActionInfo`, as far as the action reads it. -/
structure FLatentActionInfo where
  ExecutionFunction : FName
  Linkage : Int
  CallbackTarget : Nat
  deriving DecidableEq, Repr

/-- The members of `FLoadPackagePriorityActionBase` (the delegate `LoadCB` is
bound to `OnPackageLoadCompleteCB` of the same object and is not a field). -/
structure FLoadPackagePriorityActionBase where
  PackagePath : String
  ExecutionFunction : FName
  OutputLink : Int
  CallbackTarget : Nat
  Result : EAsyncLoadingResult
  LoadedPackage : Option UPackage
  LoadRequest : Int
  deriving DecidableEq, Repr

/-- The constructor of `FLoadPackagePriorityActionBase`.  `LoadPackageAsync` is
the host engine's routine, a parameter: it gives the request id.  The engine
delivers the result of the load (at once when the load is flushed, later
otherwise) by calling `OnPackageLoadCompleteCB`. -/
def FLoadPackagePriorityActionBase.construct (LoadPackageAsync : String → Int → Int)
    (packagePath : String) (priority : Int) (_blockOnLoad : Bool)
    (inLatentInfo : FLatentActionInfo) : FLoadPackagePriorityActionBase :=
  { PackagePath := packagePath
    ExecutionFunction := inLatentInfo.ExecutionFunction
    OutputLink := inLatentInfo.Linkage
    CallbackTarget := inLatentInfo.CallbackTarget
    Result := EAsyncLoadingResult.Failed
    LoadedPackage := none
    LoadRequest := LoadPackageAsync packagePath priority }

/-- `FLoadPackagePriorityActionBase::OnPackageLoadCompleteCB`. -/
def FLoadPackagePriorityActionBase.OnPackageLoadCompleteCB (a : FLoadPackagePriorityActionBase)
    (_packagePath : FName) (loadedPackage : Option UPackage) (result : EAsyncLoadingResult) :
    FLoadPackagePriorityActionBase :=
  { a with Result := result, LoadedPackage := loadedPackage }

/-- What one `UpdateOperation` does to its surroundings: the condition given to
`Response.FinishAndTriggerIf`, and the arguments with which `OnLoaded` hands the
result to the user's delegate when `OnLoaded` is invoked. -/
structure UpdateResponse where
  finished : Bool
  onLoaded : Option (Option UPackage × EAsyncLoadingResult)
  deriving DecidableEq, Repr

/-- `FLoadPackagePriorityActionBase::UpdateOperation`, with `OnLoaded` as
overridden by `FLoadPackageAction` in `LoadPackagePriority`. -/
def FLoadPackagePriorityActionBase.UpdateOperation (a : FLoadPackagePriorityActionBase) :
    UpdateResponse :=
  let bLoaded : Bool := decide (a.LoadRequest = INDEX_NONE)
  { finished := bLoaded
    onLoaded := if bLoaded then some (a.LoadedPackage, a.Result) else none }

/-! ## Quantities used to state the properties of the montage loop -/

/-- The length that the loop iteration for `sequence` at `sequenceIndex` adds to
`curTime`: nothing for a skipped sequence, its length times its looping count
for an accepted one. -/
def segmentLength (IsCompatible : USkeleton → Option USkeleton → Bool)
    (AssetSkeleton : USkeleton) (LoopTimes : List Int) (sequenceIndex : Nat)
    (sequence : Option UAnimSequence) : ℚ :=
  match sequence with
  | none => 0
  | some s =>
    if IsCompatible AssetSkeleton s.Skeleton then
      s.SequenceLength * (loopingCount LoopTimes sequenceIndex : ℚ)
    else 0

/-- The segments that the loop appends for the elements of the list, starting at
index `i` and time `t`. -/
def stitchedSegments (IsCompatible : USkeleton → Option USkeleton → Bool)
    (AssetSkeleton : USkeleton) (LoopTimes : List Int) :
    List (Option UAnimSequence) → Nat → ℚ → List FAnimSegment
  | [], _, _ => []
  | none :: rest, i, t => stitchedSegments IsCompatible AssetSkeleton LoopTimes rest (i + 1) t
  | some s :: rest, i, t =>
    if IsCompatible AssetSkeleton s.Skeleton then
      { AnimReference := some s, StartPos := t, AnimStartTime := 0,
        AnimEndTime := s.SequenceLength, AnimPlayRate := 1,
        LoopingCount := loopingCount LoopTimes i } ::
        stitchedSegments IsCompatible AssetSkeleton LoopTimes rest (i + 1)
          (t + s.SequenceLength * (loopingCount LoopTimes i : ℚ))
    else stitchedSegments IsCompatible AssetSkeleton LoopTimes rest (i + 1) t

/-- Whether the loop accepts an element of `SequencesIn`: it is not null and
its skeleton is compatible with the skeleton of the montage. -/
def accepted (IsCompatible : USkeleton → Option USkeleton → Bool) (AssetSkeleton : USkeleton)
    (sequence : Option UAnimSequence) : Bool :=
  match sequence with
  | none => false
  | some s => IsCompatible AssetSkeleton s.Skeleton

/-- A segment ends where its sequence, played `LoopingCount` times, ends. -/
def followsOn (a b : FAnimSegment) : Prop :=
  ∃ s, a.AnimReference = some s ∧
    b.StartPos = a.StartPos + s.SequenceLength * (a.LoopingCount : ℚ)

/-- The name that `AddAnimCompositeSection` gives to the section it builds. -/
def newSectionName (M : UAnimMontage) (InSectionName : FName) : FName :=
  if InSectionName ≠ NAME_None then InSectionName
  else "Section" ++ toString (M.CompositeSections.length + 1)

/-- Loop invariant: every section of the montage under construction carries a
name that is recorded in `usedSections`. -/
def sectionsAreUsed (st : SequencesLoopState) : Prop :=
  ∀ s ∈ st.NewMontage.CompositeSections, s.SectionName ∈ st.usedSections

/-- The sequence length that the montage of `CreateDynamicMontageOfSequences` is
claimed to have: the sum, over the indices whose sequence is non-null and
skeleton-compatible, of `SequenceLength(i) * L(i)`, where `L(i)` is
`max(1, LoopTimes[i])` for a valid index of `LoopTimes` and `1` otherwise. -/
def claimedSequenceLength (IsCompatible : USkeleton → Option USkeleton → Bool)
    (AssetSkeleton : USkeleton) (SequencesIn : List (Option UAnimSequence))
    (LoopTimes : List Int) : ℚ :=
  ∑ i in Finset.range SequencesIn.length,
    match SequencesIn[i]? with
    | some (some s) =>
      if IsCompatible AssetSkeleton s.Skeleton then
        s.SequenceLength *
          (((if h : i < LoopTimes.length then max 1 (LoopTimes.get ⟨i, h⟩) else 1 : Int)) : ℚ)
      else 0
    | _ => 0

/-- The state in which `CreateDynamicMontageOfSequences` enters its loop: the
fresh montage with the skeleton and the slot name set, `curTime` 0 and an
empty set of used section names. -/
def initialLoopState (AssetSkeleton : USkeleton) (AnimSlot : FName) : SequencesLoopState :=
  { NewMontage :=
      { UAnimMontage.constructed with
        Skeleton := some AssetSkeleton
        SlotAnimTracks :=
          [{ SlotName := if AnimSlot ≠ NAME_None then AnimSlot else "DefaultSlot"
             AnimTrack := { AnimSegments := [] } }] }
    curTime := 0
    usedSections := [] }

/-- The montage object that `CreateDynamicMontageFromMontage` builds from the
source montage. -/
def copiedMontage (source : UAnimMontage) (AssetSkeleton : USkeleton) (SlotOverride : FName)
    (OverrideBlendIn OverrideBlendOut OverrideBlendOutTriggerTime : ℚ) : UAnimMontage :=
  { Skeleton := some AssetSkeleton
    MetaData := source.MetaData.filter fun metaData => metaData.isSome
    SlotAnimTracks :=
      if SlotOverride ≠ NAME_None then
        source.SlotAnimTracks.map fun slotTrack => { slotTrack with SlotName := SlotOverride }
      else source.SlotAnimTracks
    CompositeSections := source.CompositeSections
    SequenceLength := source.SequenceLength
    RateScale := source.RateScale
    BlendIn :=
      { BlendTime := if OverrideBlendIn ≠ -1 then OverrideBlendIn else source.BlendIn.BlendTime }
    BlendOut :=
      { BlendTime := if OverrideBlendOut ≠ -1 then OverrideBlendOut else source.BlendOut.BlendTime }
    BlendOutTriggerTime :=
      if OverrideBlendOutTriggerTime ≠ -1 then OverrideBlendOutTriggerTime
      else source.BlendOutTriggerTime
    bEnableAutoBlendOut := true }

/-- An example montage: one slot track with two segments and two sections. -/
def exampleSourceMontage : UAnimMontage :=
  { Skeleton := some ⟨1⟩
    MetaData := [none, some ⟨"AnimMetaData_Tag", "Tag_0"⟩]
    SlotAnimTracks :=
      [{ SlotName := "UpperBody"
         AnimTrack :=
          { AnimSegments :=
              [{ AnimReference := some ⟨some ⟨1⟩, 2⟩, StartPos := 0, AnimStartTime := 0,
                 AnimEndTime := 2, AnimPlayRate := 1, LoopingCount := 1 },
               { AnimReference := some ⟨some ⟨1⟩, 3⟩, StartPos := 2, AnimStartTime := 0,
                 AnimEndTime := 3, AnimPlayRate := 1, LoopingCount := 1 }] } }]
    CompositeSections :=
      [{ SectionName := "Start", NextSectionName := "Loop", StartTime := 0,
         LinkMethod := EAnimLinkMethod.Absolute },
       { SectionName := "Loop", NextSectionName := NAME_None, StartTime := 2,
         LinkMethod := EAnimLinkMethod.Absolute }]
    SequenceLength := 5
    RateScale := 1
    BlendIn := { BlendTime := 1 / 4 }
    BlendOut := { BlendTime := 1 / 2 }
    BlendOutTriggerTime := -1
    bEnableAutoBlendOut := true }

/-- An example of the engine state read by
`FindScreenEdgeLocationForWorldLocation`: an 800 by 600 viewport and a target
that projects to (700, 700), below the screen; the offset from the centre is
(300, 400), so the cosine is 4/5 and the sine is 3/5. -/
def exampleScreenContext : ScreenContext ℚ :=
  { GEngine := true
    ViewportSize := ⟨800, 600⟩
    World := true
    PlayerController := true
    PlayerCharacter := some { ActorForwardVector := ⟨1, 0, 0⟩, ActorLocation := ⟨0, 0, 0⟩ }
    ProjectWorldLocationToScreen := fun _ _ => ⟨700, 700⟩
    GetSafeNormal := fun v => v
    Atan2 := fun _ _ => 0
    cosf := fun _ => 4 / 5
    sinf := fun _ => -(3 / 5)
    PI := 22 / 7 }

/-- Whether the loop iteration for `sequence` at `sequenceIndex` adds a section:
the sequence is accepted, there is a name entry for the index, and the name is
not in `usedSections`. -/
def addsSection (IsCompatible : USkeleton → Option USkeleton → Bool) (AssetSkeleton : USkeleton)
    (PerSequenceSectionNames : List FName) (sequenceIndex : Nat)
    (sequence : Option UAnimSequence) (usedSections : List FName) : Bool :=
  accepted IsCompatible AssetSkeleton sequence &&
    match PerSequenceSectionNames[sequenceIndex]? with
    | some SectionName => !usedSections.contains SectionName
    | none => false

/-- The content of `usedSections` after the loop iteration for `sequence` at
`sequenceIndex`. -/
def usedAfter (IsCompatible : USkeleton → Option USkeleton → Bool) (AssetSkeleton : USkeleton)
    (PerSequenceSectionNames : List FName) (sequenceIndex : Nat)
    (sequence : Option UAnimSequence) (usedSections : List FName) : List FName :=
  if addsSection IsCompatible AssetSkeleton PerSequenceSectionNames sequenceIndex sequence
      usedSections then
    match PerSequenceSectionNames[sequenceIndex]? with
    | some SectionName => SectionName :: usedSections
    | none => usedSections
  else usedSections

/-- An example montage with a single section, named `Section2`. -/
def exampleNamedSectionMontage : UAnimMontage :=
  { UAnimMontage.constructed with
    CompositeSections :=
      [{ SectionName := "Section2", NextSectionName := NAME_None, StartTime := 0,
         LinkMethod := EAnimLinkMethod.Absolute }] }

/-- An example montage with a single section, named `Start`, that has no link
to a next section. -/
def exampleUnlinkedSectionMontage : UAnimMontage :=
  { UAnimMontage.constructed with
    CompositeSections :=
      [{ SectionName := "Start", NextSectionName := NAME_None, StartTime := 0,
         LinkMethod := EAnimLinkMethod.Absolute }] }

/-- Whether the sequence at index `i` of `SequencesIn` is accepted by the loop:
the index is valid, the sequence is not null and its skeleton is compatible. -/
def acceptedAt (IsCompatible : USkeleton → Option USkeleton → Bool) (AssetSkeleton : USkeleton)
    (SequencesIn : List (Option UAnimSequence)) (i : Nat) : Bool :=
  accepted IsCompatible AssetSkeleton (SequencesIn[i]?).join

/-- Whether index `i` is one that gets a section: its sequence is accepted,
`PerSequenceSectionNames` has an entry for it, and that name is not the name of
an earlier accepted index. -/
def startsSection (IsCompatible : USkeleton → Option USkeleton → Bool) (AssetSkeleton : USkeleton)
    (SequencesIn : List (Option UAnimSequence)) (PerSequenceSectionNames : List FName)
    (i : Nat) : Bool :=
  acceptedAt IsCompatible AssetSkeleton SequencesIn i &&
    match PerSequenceSectionNames[i]? with
    | some SectionName =>
      (List.range i).all fun j =>
        !(acceptedAt IsCompatible AssetSkeleton SequencesIn j &&
          PerSequenceSectionNames[j]? == some SectionName)
    | none => false

/-- The value of `curTime` when the loop reaches index `i`: the lengths that
the iterations before `i` have added. -/
def curTimeAt (IsCompatible : USkeleton → Option USkeleton → Bool) (AssetSkeleton : USkeleton)
    (SequencesIn : List (Option UAnimSequence)) (LoopTimes : List Int) (i : Nat) : ℚ :=
  ∑ j in Finset.range i,
    segmentLength IsCompatible AssetSkeleton LoopTimes j (SequencesIn[j]?).join

/-- Loop invariant of `CreateDynamicMontageOfSequences` on reaching index `k`:
`curTime`, `usedSections`, the section start times and the segments of slot
track 0 are what the iterations before `k` make them. -/
def loopStateAt (IsCompatible : USkeleton → Option USkeleton → Bool) (AssetSkeleton : USkeleton)
    (SequencesIn : List (Option UAnimSequence)) (Names : List FName) (LoopTimes : List Int)
    (k : Nat) (st : SequencesLoopState) : Prop :=
  st.curTime = curTimeAt IsCompatible AssetSkeleton SequencesIn LoopTimes k ∧
  (∀ n, st.usedSections.contains n = true ↔
    ∃ j, j < k ∧ acceptedAt IsCompatible AssetSkeleton SequencesIn j = true ∧
      Names[j]? = some n) ∧
  st.NewMontage.CompositeSections.map (fun s => s.StartTime)
    = (List.range k).filterMap (fun i =>
        if startsSection IsCompatible AssetSkeleton SequencesIn Names i then
          some (curTimeAt IsCompatible AssetSkeleton SequencesIn LoopTimes i)
        else none) ∧
  ∃ t others, st.NewMontage.SlotAnimTracks = t :: others ∧
    t.AnimTrack.AnimSegments.map (fun g => (g.AnimReference, g.StartPos))
      = (List.range k).filterMap (fun i =>
          if acceptedAt IsCompatible AssetSkeleton SequencesIn i then
            some ((SequencesIn[i]?).join,
              curTimeAt IsCompatible AssetSkeleton SequencesIn LoopTimes i)
          else none)

/-- Example input for `CreateDynamicMontageOfSequences`: four elements, the
second one null, with the lengths 2, 3 and 1. -/
def exampleSequences : List (Option UAnimSequence) :=
  [some ⟨some ⟨1⟩, 2⟩, none, some ⟨some ⟨1⟩, 3⟩, some ⟨some ⟨1⟩, 1⟩]

/-- Example section names for `exampleSequences`: the third repeats the first. -/
def exampleSectionNames : List FName :=
  ["Intro", "Gap", "Intro", "Outro"]

/-- An example of the engine state read by
`FindScreenEdgeLocationForWorldLocation` for a target behind the character: an
800 by 400 viewport, the character at the origin looking along the X axis, and
a projection routine that leaves its out-parameter unwritten (as for a point
that cannot be projected).  For the target (-10, 0, 0) and `EdgePercent = 1`
the behind-camera branch gives (-400, 800); its offset from the centre is
(-800, 600), so the cosine is 3/5 and the sine is -4/5. -/
def exampleBehindContext : ScreenContext ℚ :=
  { GEngine := true
    ViewportSize := ⟨800, 400⟩
    World := true
    PlayerController := true
    PlayerCharacter := some { ActorForwardVector := ⟨1, 0, 0⟩, ActorLocation := ⟨0, 0, 0⟩ }
    ProjectWorldLocationToScreen := fun _ OutScreenPosition => OutScreenPosition
    GetSafeNormal := fun v => ⟨v.X / 10, v.Y / 10, v.Z / 10⟩
    Atan2 := fun _ _ => 0
    cosf := fun _ => 3 / 5
    sinf := fun _ => 4 / 5
    PI := 22 / 7 }

/-- An example of the engine state read by
`FindScreenEdgeLocationForWorldLocation` in which the behind-camera position is
on screen: an 800 by 600 viewport, the character at the origin looking along
the X axis, and a projection routine that writes (-600, 0) for locations far
below the ground and leaves its out-parameter unwritten otherwise. -/
def exampleBehindOnScreenContext : ScreenContext ℚ :=
  { GEngine := true
    ViewportSize := ⟨800, 600⟩
    World := true
    PlayerController := true
    PlayerCharacter := some { ActorForwardVector := ⟨1, 0, 0⟩, ActorLocation := ⟨0, 0, 0⟩ }
    ProjectWorldLocationToScreen := fun WorldLocation OutScreenPosition =>
      if WorldLocation.Z < -1000 then ⟨-600, 0⟩ else OutScreenPosition
    GetSafeNormal := fun v => ⟨v.X / 10, v.Y / 10, v.Z / 10⟩
    Atan2 := fun _ _ => 0
    cosf := fun _ => 1
    sinf := fun _ => 0
    PI := 22 / 7 }

/-! ## Lemmas on the math helpers -/

section MathLemmas

variable {K : Type} [LinearOrderedField K] [FloorRing K]

theorem ClampAxis_nonneg (x : K) : 0 ≤ ClampAxis x := by
  unfold ClampAxis
  have h := Int.floor_le (x / 360)
  have h360 : (0 : K) < 360 := by norm_num
  have := (le_div_iff₀ h360).mp h
  linarith

theorem ClampAxis_lt (x : K) : ClampAxis x < 360 := by
  unfold ClampAxis
  have h := Int.lt_floor_add_one (x / 360)
  have h360 : (0 : K) < 360 := by norm_num
  have := (div_lt_iff₀ h360).mp h
  linarith

theorem ClampAxis_add_int_mul (x : K) (k : ℤ) :
    ClampAxis (x + 360 * (k : K)) = ClampAxis x := by
  unfold ClampAxis
  have h : (x + 360 * (k : K)) / 360 = x / 360 + (k : K) := by
    field_simp
    ring
  rw [h, Int.floor_add_int]
  push_cast
  ring

theorem ClampAxis_of_mem (x : K) (h0 : 0 ≤ x) (h1 : x < 360) : ClampAxis x = x := by
  unfold ClampAxis
  have h360 : (0 : K) < 360 := by norm_num
  have hf : ⌊x / 360⌋ = 0 := by
    rw [Int.floor_eq_iff]
    constructor
    · simpa using div_nonneg h0 h360.le
    · simpa using (div_lt_one h360).mpr h1
  rw [hf]
  simp

theorem ClampAxis_idem (x : K) : ClampAxis (ClampAxis x) = ClampAxis x :=
  ClampAxis_of_mem _ (ClampAxis_nonneg x) (ClampAxis_lt x)

/-- The result of `ShortestRotationPath` is the difference of the clamped
angles up to one full turn. -/
theorem ShortestRotationPath_cases (a b : K) :
    ShortestRotationPath a b = ClampAxis b - ClampAxis a ∨
    ShortestRotationPath a b = ClampAxis b - ClampAxis a + 360 ∨
    ShortestRotationPath a b = ClampAxis b - ClampAxis a - 360 := by
  unfold ShortestRotationPath
  simp only
  split_ifs
  · right; left; ring
  · left; ring
  · left; ring
  · right; right; ring

theorem ShortestRotationPath_abs_le (a b : K) : |ShortestRotationPath a b| ≤ 180 := by
  have hA0 := ClampAxis_nonneg a
  have hA1 := ClampAxis_lt a
  have hB0 := ClampAxis_nonneg b
  have hB1 := ClampAxis_lt b
  unfold ShortestRotationPath
  simp only
  rw [abs_le]
  split_ifs with h1 h2 h2 <;> constructor <;> simp only [gt_iff_lt, not_lt] at * <;> linarith

theorem ShortestRotationPath_reaches (a b : K) :
    ClampAxis (a + ShortestRotationPath a b) = ClampAxis b := by
  have ha : a = ClampAxis a + 360 * ((⌊a / 360⌋ : ℤ) : K) := by
    unfold ClampAxis; ring
  have key : ∀ j : ℤ, ShortestRotationPath a b = ClampAxis b - ClampAxis a + 360 * (j : K) →
      ClampAxis (a + ShortestRotationPath a b) = ClampAxis b := by
    intro j hj
    have : a + ShortestRotationPath a b
        = ClampAxis b + 360 * (((⌊a / 360⌋ + j : ℤ)) : K) := by
      rw [hj]
      push_cast
      nth_rewrite 1 [ha]
      ring
    rw [this, ClampAxis_add_int_mul, ClampAxis_idem]
  rcases ShortestRotationPath_cases a b with h | h | h
  · exact key 0 (by rw [h]; simp)
  · exact key 1 (by rw [h]; simp)
  · exact key (-1) (by rw [h]; push_cast; ring)

theorem ShortestRotationPath_same (a b : K) (h : ClampAxis a = ClampAxis b) :
    ShortestRotationPath a b = 0 := by
  unfold ShortestRotationPath
  simp only [h]
  norm_num

end MathLemmas

/-! ## Lemmas on the montage loop -/

theorem arrayAt_error {α : Type} (xs : List α) (i : Int) (e : Fault)
    (h : arrayAt xs i = .error e) : e = Fault.indexOutOfBounds := by
  unfold arrayAt at h
  split at h
  · split at h
    · cases h
    · cases h; rfl
  · cases h; rfl

theorem sequencesLoopBody_error (IsCompatible : USkeleton → Option USkeleton → Bool)
    (AssetSkeleton : USkeleton) (Names : List FName) (LoopTimes : List Int)
    (i : Nat) (sequence : Option UAnimSequence) (st : SequencesLoopState) (e : Fault)
    (h : sequencesLoopBody IsCompatible AssetSkeleton Names LoopTimes i sequence st = .error e) :
    e = Fault.indexOutOfBounds := by
  unfold sequencesLoopBody at h
  split at h
  · cases h
  · split at h
    · cases h
    · simp only at h
      split at h
      · rename_i e' heq
        cases h
        split at heq
        · split at heq
          · split at heq
            · cases heq
            · rename_i e'' h2
              cases heq
              exact arrayAt_error _ _ _ h2
          · cases heq
        · cases heq
      · cases h

theorem sequencesLoopBody_curTime (IsCompatible : USkeleton → Option USkeleton → Bool)
    (AssetSkeleton : USkeleton) (Names : List FName) (LoopTimes : List Int)
    (i : Nat) (sequence : Option UAnimSequence) (st st' : SequencesLoopState)
    (h : sequencesLoopBody IsCompatible AssetSkeleton Names LoopTimes i sequence st = .ok st') :
    st'.curTime = st.curTime + segmentLength IsCompatible AssetSkeleton LoopTimes i sequence := by
  unfold sequencesLoopBody at h
  unfold segmentLength
  split at h
  · cases h; simp
  · rename_i s
    by_cases hc : IsCompatible AssetSkeleton s.Skeleton = true
    · simp only [hc, Bool.not_true, Bool.false_eq_true, ↓reduceIte] at h ⊢
      split at h
      · cases h
      · cases h; rfl
    · simp only [hc, Bool.not_false, ↓reduceIte, Bool.false_eq_true] at h ⊢
      simp at hc
      simp [hc] at h
      cases h; simp

theorem sequencesLoop_error (IsCompatible : USkeleton → Option USkeleton → Bool)
    (AssetSkeleton : USkeleton) (Names : List FName) (LoopTimes : List Int)
    (l : List (Option UAnimSequence)) (k : Nat) (st : SequencesLoopState) (e : Fault)
    (h : sequencesLoop IsCompatible AssetSkeleton Names LoopTimes l k st = .error e) :
    e = Fault.indexOutOfBounds := by
  induction l generalizing k st with
  | nil => simp [sequencesLoop] at h
  | cons a rest ih =>
    unfold sequencesLoop at h
    split at h
    · rename_i e' hb
      cases h
      exact sequencesLoopBody_error _ _ _ _ _ _ _ _ hb
    · exact ih _ _ h

theorem sequencesLoop_curTime (IsCompatible : USkeleton → Option USkeleton → Bool)
    (AssetSkeleton : USkeleton) (Names : List FName) (LoopTimes : List Int)
    (l : List (Option UAnimSequence)) (k : Nat) (st st' : SequencesLoopState)
    (h : sequencesLoop IsCompatible AssetSkeleton Names LoopTimes l k st = .ok st') :
    st'.curTime = st.curTime +
      ∑ j in Finset.range l.length,
        segmentLength IsCompatible AssetSkeleton LoopTimes (k + j) (l[j]?).join := by
  induction l generalizing k st with
  | nil =>
    simp [sequencesLoop] at h
    subst h
    simp
  | cons a rest ih =>
    unfold sequencesLoop at h
    split at h
    · cases h
    · rename_i st1 hb
      have h1 := sequencesLoopBody_curTime _ _ _ _ _ _ _ _ hb
      have h2 := ih _ _ h
      rw [h2, h1, List.length_cons, Finset.sum_range_succ']
      simp only [List.getElem?_cons_succ, List.getElem?_cons_zero, Option.join, Option.bind_some, Option.some_bind,
        id, Nat.add_zero]
      have : ∀ j, k + 1 + j = k + (j + 1) := by intro j; omega
      simp only [this]
      ring

theorem AddAnimCompositeSection_tracks (M : UAnimMontage) (n : FName) (t : ℚ) :
    (AddAnimCompositeSection M n t).1.SlotAnimTracks = M.SlotAnimTracks := by
  unfold AddAnimCompositeSection
  simp only
  split_ifs <;> rfl

theorem addSegment_tracks (M : UAnimMontage) (seg : FAnimSegment) (t : FSlotAnimationTrack)
    (others : List FSlotAnimationTrack) (h : M.SlotAnimTracks = t :: others) :
    (addSegment M seg).SlotAnimTracks =
      { t with AnimTrack := { AnimSegments := t.AnimTrack.AnimSegments ++ [seg] } } :: others := by
  unfold addSegment
  simp [h]

theorem sequencesLoopBody_tracks (IsCompatible : USkeleton → Option USkeleton → Bool)
    (AssetSkeleton : USkeleton) (Names : List FName) (LoopTimes : List Int)
    (i : Nat) (sequence : Option UAnimSequence) (st st' : SequencesLoopState)
    (t : FSlotAnimationTrack) (others : List FSlotAnimationTrack)
    (ht : st.NewMontage.SlotAnimTracks = t :: others)
    (h : sequencesLoopBody IsCompatible AssetSkeleton Names LoopTimes i sequence st = .ok st') :
    st'.NewMontage.SlotAnimTracks =
      { t with
        AnimTrack :=
          { AnimSegments := t.AnimTrack.AnimSegments ++
              stitchedSegments IsCompatible AssetSkeleton LoopTimes [sequence] i st.curTime } }
        :: others := by
  unfold sequencesLoopBody at h
  split at h
  · cases h; simp [stitchedSegments, ht]
  · rename_i s
    by_cases hc : IsCompatible AssetSkeleton s.Skeleton = true
    · simp only [hc, Bool.not_true, Bool.false_eq_true, ↓reduceIte] at h
      simp only [stitchedSegments, hc, ↓reduceIte]
      split at h
      · cases h
      · rename_i M2 used heq
        cases h
        simp only
        split at heq
        · split at heq
          · split at heq
            · cases heq
              simp only [AddAnimCompositeSection_tracks]
              exact addSegment_tracks _ _ _ _ ht
            · cases heq
          · cases heq
            exact addSegment_tracks _ _ _ _ ht
        · cases heq
          exact addSegment_tracks _ _ _ _ ht
    · simp only [Bool.not_eq_true] at hc
      simp only [hc, Bool.not_false, ↓reduceIte] at h
      cases h
      simp [stitchedSegments, hc, ht]

theorem stitchedSegments_cons (IsCompatible : USkeleton → Option USkeleton → Bool)
    (AssetSkeleton : USkeleton) (LoopTimes : List Int) (a : Option UAnimSequence)
    (rest : List (Option UAnimSequence)) (i : Nat) (t : ℚ) :
    stitchedSegments IsCompatible AssetSkeleton LoopTimes (a :: rest) i t =
      stitchedSegments IsCompatible AssetSkeleton LoopTimes [a] i t ++
        stitchedSegments IsCompatible AssetSkeleton LoopTimes rest (i + 1)
          (t + segmentLength IsCompatible AssetSkeleton LoopTimes i a) := by
  cases a with
  | none => simp [stitchedSegments, segmentLength]
  | some s =>
    by_cases hc : IsCompatible AssetSkeleton s.Skeleton = true
    · simp [stitchedSegments, segmentLength, hc]
    · simp only [Bool.not_eq_true] at hc
      simp [stitchedSegments, segmentLength, hc]

theorem sequencesLoop_tracks (IsCompatible : USkeleton → Option USkeleton → Bool)
    (AssetSkeleton : USkeleton) (Names : List FName) (LoopTimes : List Int)
    (l : List (Option UAnimSequence)) (k : Nat) (st st' : SequencesLoopState)
    (t : FSlotAnimationTrack) (others : List FSlotAnimationTrack)
    (ht : st.NewMontage.SlotAnimTracks = t :: others)
    (h : sequencesLoop IsCompatible AssetSkeleton Names LoopTimes l k st = .ok st') :
    st'.NewMontage.SlotAnimTracks =
      { t with
        AnimTrack :=
          { AnimSegments := t.AnimTrack.AnimSegments ++
              stitchedSegments IsCompatible AssetSkeleton LoopTimes l k st.curTime } }
        :: others := by
  induction l generalizing k st t with
  | nil =>
    simp [sequencesLoop] at h
    subst h
    simp [stitchedSegments, ht]
  | cons a rest ih =>
    unfold sequencesLoop at h
    split at h
    · cases h
    · rename_i st1 hb
      have h1 := sequencesLoopBody_tracks _ _ _ _ _ _ _ _ _ _ ht hb
      have h2 := ih _ _ _ h1 h
      rw [h2, stitchedSegments_cons _ _ _ a rest, sequencesLoopBody_curTime _ _ _ _ _ _ _ _ hb]
      simp

theorem loopingCount_pos (LoopTimes : List Int) (i : Nat) : 1 ≤ loopingCount LoopTimes i := by
  unfold loopingCount
  split
  · exact le_max_left _ _
  · exact le_refl _

theorem stitchedSegments_refs (IsCompatible : USkeleton → Option USkeleton → Bool)
    (AssetSkeleton : USkeleton) (LoopTimes : List Int) (l : List (Option UAnimSequence))
    (i : Nat) (t : ℚ) :
    (stitchedSegments IsCompatible AssetSkeleton LoopTimes l i t).map (fun g => g.AnimReference)
      = l.filter (accepted IsCompatible AssetSkeleton) := by
  induction l generalizing i t with
  | nil => simp [stitchedSegments]
  | cons a rest ih =>
    cases a with
    | none => simp [stitchedSegments, accepted, ih]
    | some s =>
      by_cases hc : IsCompatible AssetSkeleton s.Skeleton = true
      · simp [stitchedSegments, accepted, hc, ih]
      · simp only [Bool.not_eq_true] at hc
        simp [stitchedSegments, accepted, hc, ih]

theorem stitchedSegments_head (IsCompatible : USkeleton → Option USkeleton → Bool)
    (AssetSkeleton : USkeleton) (LoopTimes : List Int) (l : List (Option UAnimSequence))
    (i : Nat) (t : ℚ) (g : FAnimSegment)
    (h : (stitchedSegments IsCompatible AssetSkeleton LoopTimes l i t).head? = some g) :
    g.StartPos = t := by
  induction l generalizing i t with
  | nil => simp [stitchedSegments] at h
  | cons a rest ih =>
    cases a with
    | none =>
      simp only [stitchedSegments] at h
      exact ih _ _ h
    | some s =>
      by_cases hc : IsCompatible AssetSkeleton s.Skeleton = true
      · simp only [stitchedSegments, hc, ↓reduceIte, List.head?_cons, Option.some.injEq] at h
        subst h
        rfl
      · simp only [Bool.not_eq_true] at hc
        simp only [stitchedSegments, hc, Bool.false_eq_true, ↓reduceIte] at h
        exact ih _ _ h

theorem stitchedSegments_chain (IsCompatible : USkeleton → Option USkeleton → Bool)
    (AssetSkeleton : USkeleton) (LoopTimes : List Int) (l : List (Option UAnimSequence))
    (i : Nat) (t : ℚ) :
    List.Chain' followsOn (stitchedSegments IsCompatible AssetSkeleton LoopTimes l i t) := by
  induction l generalizing i t with
  | nil => simp [stitchedSegments]
  | cons a rest ih =>
    cases a with
    | none =>
      simp only [stitchedSegments]
      exact ih _ _
    | some s =>
      by_cases hc : IsCompatible AssetSkeleton s.Skeleton = true
      · simp only [stitchedSegments, hc, ↓reduceIte]
        rw [List.chain'_cons']
        refine ⟨?_, ih _ _⟩
        intro g hg
        refine ⟨s, rfl, ?_⟩
        exact stitchedSegments_head _ _ _ _ _ _ _ hg
      · simp only [Bool.not_eq_true] at hc
        simp only [stitchedSegments, hc, Bool.false_eq_true, ↓reduceIte]
        exact ih _ _

theorem stitchedSegments_fields (IsCompatible : USkeleton → Option USkeleton → Bool)
    (AssetSkeleton : USkeleton) (LoopTimes : List Int) (l : List (Option UAnimSequence))
    (i : Nat) (t : ℚ) (g : FAnimSegment)
    (h : g ∈ stitchedSegments IsCompatible AssetSkeleton LoopTimes l i t) :
    ∃ s, g.AnimReference = some s ∧ g.AnimStartTime = 0 ∧ g.AnimEndTime = s.SequenceLength ∧
      g.AnimPlayRate = 1 ∧ 1 ≤ g.LoopingCount := by
  induction l generalizing i t with
  | nil => simp [stitchedSegments] at h
  | cons a rest ih =>
    cases a with
    | none =>
      simp only [stitchedSegments] at h
      exact ih _ _ h
    | some s =>
      by_cases hc : IsCompatible AssetSkeleton s.Skeleton = true
      · simp only [stitchedSegments, hc, ↓reduceIte, List.mem_cons] at h
        rcases h with h | h
        · subst h
          exact ⟨s, rfl, rfl, rfl, rfl, loopingCount_pos _ _⟩
        · exact ih _ _ h
      · simp only [Bool.not_eq_true] at hc
        simp only [stitchedSegments, hc, Bool.false_eq_true, ↓reduceIte] at h
        exact ih _ _ h

theorem map_modify_fix {α β : Type} (g : α → β) (f : α → α) (hf : ∀ x, g (f x) = g x)
    (n : Nat) (l : List α) : (l.modify f n).map g = l.map g := by
  induction l generalizing n with
  | nil => simp
  | cons a rest ih =>
    cases n with
    | zero => simp [hf]
    | succ n => simp [ih]

theorem map_set_fix {α β : Type} (g : α → β) (l : List α) (n : Nat) (x y : α)
    (hx : l[n]? = some x) (hy : g y = g x) : (l.set n y).map g = l.map g := by
  induction l generalizing n with
  | nil => simp
  | cons a rest ih =>
    cases n with
    | zero =>
      simp only [List.getElem?_cons_zero, Option.some.injEq] at hx
      subst hx
      simp [hy]
    | succ n =>
      simp only [List.getElem?_cons_succ] at hx
      simp [ih n hx]

theorem GetSectionIndex_eq_none (M : UAnimMontage) (n : FName)
    (h : ∀ s ∈ M.CompositeSections, s.SectionName ≠ n) : M.GetSectionIndex n = INDEX_NONE := by
  unfold UAnimMontage.GetSectionIndex
  simp only
  rw [if_neg]
  rw [List.findIdx_lt_length]
  rintro ⟨x, hx, hp⟩
  exact h x hx (by simpa using hp)

theorem GetSectionIndex_ne_none (M : UAnimMontage) (n : FName) (s : FCompositeSection)
    (hs : s ∈ M.CompositeSections) (hn : s.SectionName = n) :
    M.GetSectionIndex n ≠ INDEX_NONE := by
  unfold UAnimMontage.GetSectionIndex
  simp only
  rw [if_pos]
  · unfold INDEX_NONE
    omega
  · rw [List.findIdx_lt_length]
    exact ⟨s, hs, by simpa using hn⟩

theorem AddAnimCompositeSection_fresh (M : UAnimMontage) (n : FName) (t : ℚ)
    (h : M.GetSectionIndex n = INDEX_NONE) :
    (AddAnimCompositeSection M n t).2 = (M.CompositeSections.length : Int) ∧
    (AddAnimCompositeSection M n t).1.CompositeSections.map (fun s => s.SectionName)
      = M.CompositeSections.map (fun s => s.SectionName) ++ [newSectionName M n] ∧
    (AddAnimCompositeSection M n t).1.CompositeSections.map (fun s => s.StartTime)
      = M.CompositeSections.map (fun s => s.StartTime) ++ [t] := by
  unfold AddAnimCompositeSection newSectionName
  simp only [h, ne_eq, not_true_eq_false, ↓reduceIte]
  refine ⟨trivial, ?_, ?_⟩
  · split_ifs
    all_goals first
      | (rw [map_modify_fix]
         · simp [FCompositeSection.LinkMontage, FCompositeSection.defaulted]
         · intro x; split_ifs <;> rfl)
      | simp [FCompositeSection.LinkMontage, FCompositeSection.defaulted]
  · split_ifs
    all_goals first
      | (rw [map_modify_fix]
         · simp [FCompositeSection.LinkMontage, FCompositeSection.defaulted]
         · intro x; split_ifs <;> rfl)
      | simp [FCompositeSection.LinkMontage, FCompositeSection.defaulted]

theorem AddAnimCompositeSection_taken (M : UAnimMontage) (n : FName) (t : ℚ)
    (h : M.GetSectionIndex n ≠ INDEX_NONE) :
    AddAnimCompositeSection M n t = (M, INDEX_NONE) := by
  unfold AddAnimCompositeSection
  simp [h]

theorem arrayAt_ok {α : Type} (xs : List α) (i : Nat) (x : α) (h : xs[i]? = some x) :
    arrayAt xs (i : Int) = .ok x := by
  unfold arrayAt
  simp [h]

theorem addSegment_sections (M : UAnimMontage) (seg : FAnimSegment) :
    (addSegment M seg).CompositeSections = M.CompositeSections := rfl

theorem mem_of_map_eq {α β : Type} (g : α → β) (l : List α) (l' : List β) (x : α)
    (h : l.map g = l') (hx : x ∈ l) : g x ∈ l' := by
  rw [← h]
  exact List.mem_map_of_mem g hx

theorem sequencesLoopBody_total (IsCompatible : USkeleton → Option USkeleton → Bool)
    (AssetSkeleton : USkeleton) (Names : List FName) (LoopTimes : List Int)
    (i : Nat) (sequence : Option UAnimSequence) (st : SequencesLoopState)
    (hN : NAME_None ∉ Names) (hinv : sectionsAreUsed st) :
    ∃ st', sequencesLoopBody IsCompatible AssetSkeleton Names LoopTimes i sequence st = .ok st'
      ∧ sectionsAreUsed st' := by
  unfold sequencesLoopBody
  cases sequence with
  | none => exact ⟨st, rfl, hinv⟩
  | some s =>
    simp only
    by_cases hc : IsCompatible AssetSkeleton s.Skeleton = true
    swap
    · simp only [Bool.not_eq_true] at hc
      simp only [hc, Bool.not_false, ↓reduceIte]
      exact ⟨st, rfl, hinv⟩
    simp only [hc, Bool.not_true, Bool.false_eq_true, ↓reduceIte]
    cases hname : Names[i]? with
    | none =>
      simp only
      exact ⟨_, rfl, hinv⟩
    | some n =>
      simp only
      by_cases hu : st.usedSections.contains n = true
      · simp only [hu, Bool.not_true, Bool.false_eq_true, ↓reduceIte]
        exact ⟨_, rfl, hinv⟩
      · simp only [Bool.not_eq_true] at hu
        simp only [hu, Bool.not_false, ↓reduceIte]
        have hn : n ≠ NAME_None := by
          intro h
          apply hN
          rw [← h]
          exact List.getElem?_mem hname
        have hnot : n ∉ st.usedSections := by
          intro hmem
          have : st.usedSections.contains n = true := by simpa using hmem
          rw [hu] at this
          cases this
        set seg : FAnimSegment :=
          { AnimReference := some s, StartPos := st.curTime, AnimStartTime := 0,
            AnimEndTime := s.SequenceLength, AnimPlayRate := 1,
            LoopingCount := loopingCount LoopTimes i } with hseg
        have hfree : (addSegment st.NewMontage seg).GetSectionIndex n = INDEX_NONE := by
          apply GetSectionIndex_eq_none
          intro x hx hxn
          apply hnot
          rw [← hxn]
          exact hinv x hx
        obtain ⟨h1, h2, _⟩ := AddAnimCompositeSection_fresh _ n st.curTime hfree
        generalize AddAnimCompositeSection (addSegment st.NewMontage seg) n st.curTime = r at h1 h2
        obtain ⟨M2, idx⟩ := r
        simp only at h1 h2
        subst h1
        simp only [newSectionName, hn, ne_eq, not_false_eq_true, ↓reduceIte,
          addSegment_sections] at h2
        have hlen : M2.CompositeSections.length = st.NewMontage.CompositeSections.length + 1 := by
          have := congrArg List.length h2
          simpa using this
        have hlt : st.NewMontage.CompositeSections.length < M2.CompositeSections.length := by
          omega
        have hget : M2.CompositeSections[st.NewMontage.CompositeSections.length]?
            = some (M2.CompositeSections.get ⟨_, hlt⟩) := by
          simp [List.getElem?_eq_getElem hlt]
        simp only [addSegment_sections, arrayAt_ok _ _ _ hget, Int.toNat_ofNat]
        refine ⟨_, rfl, ?_⟩
        intro x hx
        simp only at hx ⊢
        have hmap := map_set_fix (fun s : FCompositeSection => s.SectionName) M2.CompositeSections
          st.NewMontage.CompositeSections.length _
          ((M2.CompositeSections.get ⟨_, hlt⟩).ChangeLinkMethod EAnimLinkMethod.Relative) hget rfl
        have hx' := mem_of_map_eq _ _ _ x (hmap.trans h2) hx
        simp only [List.mem_append, List.mem_map, List.mem_singleton] at hx'
        rcases hx' with ⟨y, hy, hyx⟩ | hx'
        · rw [← hyx]
          exact List.mem_cons_of_mem _ (hinv y hy)
        · rw [hx']
          exact List.mem_cons_self _ _

theorem sequencesLoop_total (IsCompatible : USkeleton → Option USkeleton → Bool)
    (AssetSkeleton : USkeleton) (Names : List FName) (LoopTimes : List Int)
    (l : List (Option UAnimSequence)) (k : Nat) (st : SequencesLoopState)
    (hN : NAME_None ∉ Names) (hinv : sectionsAreUsed st) :
    ∃ st', sequencesLoop IsCompatible AssetSkeleton Names LoopTimes l k st = .ok st' := by
  induction l generalizing k st with
  | nil => exact ⟨st, rfl⟩
  | cons a rest ih =>
    obtain ⟨st1, h1, hinv1⟩ :=
      sequencesLoopBody_total IsCompatible AssetSkeleton Names LoopTimes k a st hN hinv
    unfold sequencesLoop
    rw [h1]
    exact ih _ _ hinv1

theorem claimedSequenceLength_eq (IsCompatible : USkeleton → Option USkeleton → Bool)
    (AssetSkeleton : USkeleton) (SequencesIn : List (Option UAnimSequence))
    (LoopTimes : List Int) :
    claimedSequenceLength IsCompatible AssetSkeleton SequencesIn LoopTimes =
      ∑ j in Finset.range SequencesIn.length,
        segmentLength IsCompatible AssetSkeleton LoopTimes (0 + j) (SequencesIn[j]?).join := by
  unfold claimedSequenceLength
  apply Finset.sum_congr rfl
  intro i _
  have hL : ((if h : i < LoopTimes.length then max 1 (LoopTimes.get ⟨i, h⟩) else 1 : Int))
      = loopingCount LoopTimes i := by
    unfold loopingCount
    by_cases h : i < LoopTimes.length
    · simp [h, List.getElem?_eq_getElem h]
    · simp [h, List.getElem?_eq_none (Nat.le_of_not_lt h)]
  rw [hL, Nat.zero_add]
  cases hq : SequencesIn[i]? with
  | none => simp [segmentLength, Option.join]
  | some q =>
    cases q with
    | none => simp [segmentLength, Option.join]
    | some s => simp [segmentLength, Option.join]

theorem CreateDynamicMontageOfSequences_run
    (IsCompatible : USkeleton → Option USkeleton → Bool)
    (SequencesIn : List (Option UAnimSequence)) (first : UAnimSequence)
    (AssetSkeleton : USkeleton) (Names : List FName) (LoopTimes : List Int) (AnimSlot : FName)
    (BlendIn BlendOut BlendOutTriggerTime : ℚ) (EnableAutoBlendOut : Bool)
    (hfirst : SequencesIn.head? = some (some first))
    (hskel : first.Skeleton = some AssetSkeleton) :
    (∃ e, sequencesLoop IsCompatible AssetSkeleton Names LoopTimes SequencesIn 0
          (initialLoopState AssetSkeleton AnimSlot) = .error e ∧
        CreateDynamicMontageOfSequences IsCompatible SequencesIn Names LoopTimes AnimSlot
          BlendIn BlendOut BlendOutTriggerTime EnableAutoBlendOut = .error e) ∨
    (∃ st M, sequencesLoop IsCompatible AssetSkeleton Names LoopTimes SequencesIn 0
          (initialLoopState AssetSkeleton AnimSlot) = .ok st ∧
        CreateDynamicMontageOfSequences IsCompatible SequencesIn Names LoopTimes AnimSlot
          BlendIn BlendOut BlendOutTriggerTime EnableAutoBlendOut = .ok (some M) ∧
        M.SequenceLength = st.curTime ∧
        M.SlotAnimTracks = st.NewMontage.SlotAnimTracks ∧
        M.CompositeSections = st.NewMontage.CompositeSections) := by
  cases SequencesIn with
  | nil => simp at hfirst
  | cons a rest =>
    simp only [List.head?_cons, Option.some.injEq] at hfirst
    subst hfirst
    unfold CreateDynamicMontageOfSequences initialLoopState
    simp only [hskel]
    by_cases hs : AnimSlot ≠ NAME_None
    · simp only [hs, ↓reduceIte, UAnimMontage.constructed, arrayAt, le_refl, Int.toNat_zero,
        List.getElem?_cons_zero, List.modify_zero_cons, ne_eq, not_false_eq_true]
      split
      · rename_i e he
        exact Or.inl ⟨e, he, rfl⟩
      · rename_i st hst
        exact Or.inr ⟨st, _, hst, rfl, rfl, rfl, rfl⟩
    · simp only [hs, ↓reduceIte, UAnimMontage.constructed, arrayAt, le_refl, Int.toNat_zero,
        List.getElem?_cons_zero]
      split
      · rename_i e he
        exact Or.inl ⟨e, he, rfl⟩
      · rename_i st hst
        exact Or.inr ⟨st, _, hst, rfl, rfl, rfl, rfl⟩

theorem initialLoopState_used (AssetSkeleton : USkeleton) (AnimSlot : FName) :
    sectionsAreUsed (initialLoopState AssetSkeleton AnimSlot) := by
  intro s hs
  simp [initialLoopState, UAnimMontage.constructed] at hs

theorem chain_getElem? {α : Type} (R : α → α → Prop) (l : List α) (h : List.Chain' R l)
    (i : Nat) (a b : α) (ha : l[i]? = some a) (hb : l[i + 1]? = some b) : R a b := by
  induction l generalizing i with
  | nil => simp at ha
  | cons x rest ih =>
    rw [List.chain'_cons'] at h
    cases i with
    | zero =>
      simp only [List.getElem?_cons_zero, Option.some.injEq] at ha
      simp only [Nat.zero_add, List.getElem?_cons_succ] at hb
      subst ha
      apply h.1
      cases rest with
      | nil => simp at hb
      | cons y r => simpa using hb
    | succ i =>
      simp only [List.getElem?_cons_succ] at ha hb
      exact ih h.2 i ha hb

theorem abs_div_le_of_not_abs_mul_le {K : Type} [LinearOrderedField K] (xr yr t : K) (hx : 0 < xr) (hy : 0 < yr)
    (h : ¬ |xr * t| ≤ yr) : |yr / t| ≤ xr := by
  have ht : t ≠ 0 := by
    rintro rfl
    apply h
    simpa using hy.le
  have hpos : 0 < |t| := abs_pos.mpr ht
  rw [abs_div, abs_of_pos hy, div_le_iff₀ hpos]
  rw [abs_mul, abs_of_pos hx] at h
  linarith

theorem abs_mul_lt_of_lt_abs_div {K : Type} [LinearOrderedField K] (a b m : K)
    (ha : 0 ≤ a) (hb : 0 ≤ b) (h : b < |a / m|) : |b * m| < a := by
  have hm : m ≠ 0 := by
    rintro rfl
    simp at h
    exact absurd h (not_lt.mpr hb)
  have hpos : 0 < |m| := abs_pos.mpr hm
  rw [abs_div, abs_of_nonneg ha, lt_div_iff₀ hpos] at h
  rw [abs_mul, abs_of_nonneg hb]
  exact h

theorem assign_last (l : List UAnimMontage) (m : UAnimMontage) (f : UAnimMontage → UAnimMontage) :
    ObjectStore.assign { montages := l ++ [m] } l.length f = { montages := l ++ [f m] } := by
  unfold ObjectStore.assign
  congr 1
  induction l with
  | nil => simp
  | cons a rest ih => simpa using ih

theorem deref_old (l : List UAnimMontage) (m source : UAnimMontage) (p : Nat)
    (h : l[p]? = some source) : ObjectStore.deref { montages := l ++ [m] } p = .ok source := by
  unfold ObjectStore.deref
  have hp : p < l.length := by
    by_contra hn
    rw [List.getElem?_eq_none (Nat.le_of_not_lt hn)] at h
    cases h
  simp only [List.getElem?_append_left hp, h]

theorem deref_here (store : ObjectStore) (source : UAnimMontage) (p : Nat)
    (h : store.montages[p]? = some source) : store.deref p = .ok source := by
  unfold ObjectStore.deref
  simp only [h]

theorem copyMetaData_eq (l : List (Option UAnimMetaData)) (M : UAnimMontage) :
    copyMetaData l M =
      { M with MetaData := M.MetaData ++ l.filter fun metaData => metaData.isSome } := by
  unfold copyMetaData
  induction l generalizing M with
  | nil => simp
  | cons a rest ih =>
    simp only [List.foldl_cons]
    cases a with
    | none => simpa using ih M
    | some d =>
      rw [ih]
      simp

theorem CreateDynamicMontageFromMontage_run (store : ObjectStore) (MontageIn : Nat)
    (source : UAnimMontage) (AssetSkeleton : USkeleton) (SlotOverride : FName)
    (OverrideBlendIn OverrideBlendOut OverrideBlendOutTriggerTime : ℚ)
    (hsource : store.montages[MontageIn]? = some source)
    (hskel : source.Skeleton = some AssetSkeleton) :
    CreateDynamicMontageFromMontage store (some MontageIn) SlotOverride OverrideBlendIn
        OverrideBlendOut OverrideBlendOutTriggerTime
      = .ok ({ montages := store.montages ++
                [copiedMontage source AssetSkeleton SlotOverride OverrideBlendIn OverrideBlendOut
                  OverrideBlendOutTriggerTime] },
             some store.montages.length) := by
  unfold CreateDynamicMontageFromMontage
  simp only [deref_here store source MontageIn hsource, bind, Except.bind, hskel,
    ObjectStore.NewObject, assign_last, deref_old _ _ source MontageIn hsource, pure, Except.pure,
    copyMetaData_eq, UAnimMontage.constructed, FAlphaBlend.SetBlendTime,
    FAlphaBlend.GetBlendTime, copiedMontage]
  split_ifs <;> simp [assign_last]

theorem GetSectionIndex_eq_first (M : UAnimMontage) (n : FName) (i : Nat)
    (s : FCompositeSection) (hs : M.CompositeSections[i]? = some s) (hn : s.SectionName = n)
    (hfirst : ∀ j t, j < i → M.CompositeSections[j]? = some t → t.SectionName ≠ n) :
    M.GetSectionIndex n = (i : Int) := by
  have hi : i < M.CompositeSections.length := by
    by_contra hlt
    rw [List.getElem?_eq_none (Nat.le_of_not_lt hlt)] at hs
    cases hs
  have hidx : M.CompositeSections.findIdx (fun s => s.SectionName == n) = i := by
    rw [List.findIdx_eq hi]
    rw [List.getElem?_eq_getElem hi] at hs
    simp only [Option.some.injEq] at hs
    constructor
    · rw [hs]
      simpa using hn
    · intro j hj
      have := hfirst j _ hj (List.getElem?_eq_getElem (Nat.lt_trans hj hi))
      simpa using this
  unfold UAnimMontage.GetSectionIndex
  simp only [hidx, hi, ↓reduceIte]

theorem ShortestRotationPath_clamp {K : Type} [LinearOrderedField K] [FloorRing K] (a b : K) :
    ShortestRotationPath (ClampAxis a) (ClampAxis b) = ShortestRotationPath a b := by
  unfold ShortestRotationPath
  simp only [ClampAxis_idem]

theorem ShortestRotationPath_range {K : Type} [LinearOrderedField K] [FloorRing K] (a b : K) :
    -180 ≤ ShortestRotationPath a b ∧ ShortestRotationPath a b < 180 := by
  have hA0 := ClampAxis_nonneg a
  have hA1 := ClampAxis_lt a
  have hB0 := ClampAxis_nonneg b
  have hB1 := ClampAxis_lt b
  unfold ShortestRotationPath
  simp only
  split_ifs with h1 h2 h2 <;> constructor <;> simp only [gt_iff_lt, not_lt] at * <;> linarith

theorem ShortestRotationPath_unique {K : Type} [LinearOrderedField K] [FloorRing K]
    (a b q : K) (k : ℤ) (hq1 : -180 ≤ q) (hq2 : q < 180)
    (h : ClampAxis b - ClampAxis a = q + 360 * (k : K)) : ShortestRotationPath a b = q := by
  obtain ⟨r1, r2⟩ := ShortestRotationPath_range a b
  have key : ∀ j : ℤ, ShortestRotationPath a b = ClampAxis b - ClampAxis a + 360 * (j : K) →
      ShortestRotationPath a b = q := by
    intro j hj
    have hsum : ShortestRotationPath a b - q = 360 * ((k + j : ℤ) : K) := by
      rw [hj, h]; push_cast; ring
    have h1 : ((k + j : ℤ) : K) < 1 := by
      have : (360 : K) * ((k + j : ℤ) : K) < 360 := by rw [← hsum]; linarith
      linarith
    have h2 : (-1 : K) < ((k + j : ℤ) : K) := by
      have : (-360 : K) < 360 * ((k + j : ℤ) : K) := by rw [← hsum]; linarith
      linarith
    have h1' : k + j < 1 := by exact_mod_cast h1
    have h2' : -1 < k + j := by exact_mod_cast h2
    have h0 : k + j = 0 := by omega
    rw [h0] at hsum
    simp only [Int.cast_zero, mul_zero] at hsum
    linarith
  rcases ShortestRotationPath_cases a b with h' | h' | h'
  · exact key 0 (by rw [h']; simp)
  · exact key 1 (by rw [h']; simp)
  · exact key (-1) (by rw [h']; push_cast; ring)

theorem arrayAt_INDEX_NONE {α : Type} (xs : List α) :
    arrayAt xs INDEX_NONE = .error Fault.indexOutOfBounds := by
  unfold arrayAt INDEX_NONE
  simp

theorem sequencesLoopBody_sections (IsCompatible : USkeleton → Option USkeleton → Bool)
    (AssetSkeleton : USkeleton) (Names : List FName) (LoopTimes : List Int)
    (i : Nat) (sequence : Option UAnimSequence) (st st' : SequencesLoopState)
    (h : sequencesLoopBody IsCompatible AssetSkeleton Names LoopTimes i sequence st = .ok st') :
    st'.NewMontage.CompositeSections.map (fun s => s.StartTime)
      = st.NewMontage.CompositeSections.map (fun s => s.StartTime) ++
        (if addsSection IsCompatible AssetSkeleton Names i sequence st.usedSections
          then [st.curTime] else []) ∧
    st'.usedSections = usedAfter IsCompatible AssetSkeleton Names i sequence st.usedSections := by
  unfold sequencesLoopBody at h
  unfold usedAfter addsSection accepted
  cases sequence with
  | none =>
    simp only at h
    cases h
    simp
  | some s =>
    simp only at h ⊢
    by_cases hc : IsCompatible AssetSkeleton s.Skeleton = true
    swap
    · simp only [Bool.not_eq_true] at hc
      simp only [hc, Bool.not_false, ↓reduceIte] at h
      cases h
      simp [hc]
    simp only [hc, Bool.not_true, Bool.false_eq_true, ↓reduceIte, Bool.true_and] at h ⊢
    cases hname : Names[i]? with
    | none =>
      simp only [hname] at h
      cases h
      simp [addSegment_sections]
    | some n =>
      simp only [hname] at h ⊢
      by_cases hu : st.usedSections.contains n = true
      · simp only [hu, Bool.not_true, Bool.false_eq_true, ↓reduceIte] at h ⊢
        cases h
        simp [addSegment_sections]
      · simp only [Bool.not_eq_true] at hu
        simp only [hu, Bool.not_false, ↓reduceIte] at h ⊢
        set seg : FAnimSegment :=
          { AnimReference := some s, StartPos := st.curTime, AnimStartTime := 0,
            AnimEndTime := s.SequenceLength, AnimPlayRate := 1,
            LoopingCount := loopingCount LoopTimes i } with hseg
        by_cases hfree : (addSegment st.NewMontage seg).GetSectionIndex n = INDEX_NONE
        · obtain ⟨h1, _, h3⟩ := AddAnimCompositeSection_fresh _ n st.curTime hfree
          generalize AddAnimCompositeSection (addSegment st.NewMontage seg) n st.curTime = r
            at h h1 h3
          obtain ⟨M2, idx⟩ := r
          simp only at h1 h3 h
          subst h1
          simp only [addSegment_sections] at h3
          have hlen : M2.CompositeSections.length
              = st.NewMontage.CompositeSections.length + 1 := by
            have := congrArg List.length h3
            simpa using this
          have hlt : st.NewMontage.CompositeSections.length < M2.CompositeSections.length := by
            omega
          obtain ⟨x, hget⟩ : ∃ x, M2.CompositeSections[st.NewMontage.CompositeSections.length]?
              = some x := ⟨_, List.getElem?_eq_getElem hlt⟩
          simp only [addSegment_sections, arrayAt_ok _ _ _ hget, Int.toNat_ofNat] at h
          cases h
          simp only [and_true]
          rw [map_set_fix (fun s : FCompositeSection => s.StartTime) M2.CompositeSections
            st.NewMontage.CompositeSections.length x
            (x.ChangeLinkMethod EAnimLinkMethod.Relative) hget rfl]
          exact h3
        · rw [AddAnimCompositeSection_taken _ n st.curTime hfree] at h
          simp only [arrayAt_INDEX_NONE] at h
          cases h

theorem segmentLength_nonneg (IsCompatible : USkeleton → Option USkeleton → Bool)
    (AssetSkeleton : USkeleton) (LoopTimes : List Int) (i : Nat)
    (sequence : Option UAnimSequence)
    (h : ∀ s, sequence = some s → 0 ≤ s.SequenceLength) :
    0 ≤ segmentLength IsCompatible AssetSkeleton LoopTimes i sequence := by
  unfold segmentLength
  cases sequence with
  | none => exact le_refl _
  | some s =>
    simp only
    split_ifs
    · apply mul_nonneg (h s rfl)
      have := loopingCount_pos LoopTimes i
      have h1 : (0 : ℚ) ≤ ((loopingCount LoopTimes i : Int) : ℚ) := by
        exact_mod_cast (by omega : (0 : Int) ≤ loopingCount LoopTimes i)
      exact h1
    · exact le_refl _

theorem sequencesLoop_sorted (IsCompatible : USkeleton → Option USkeleton → Bool)
    (AssetSkeleton : USkeleton) (Names : List FName) (LoopTimes : List Int)
    (l : List (Option UAnimSequence)) (k : Nat) (st st' : SequencesLoopState)
    (hnonneg : ∀ s, some s ∈ l → 0 ≤ s.SequenceLength)
    (hsorted : List.Pairwise (fun a b : ℚ => a ≤ b)
      (st.NewMontage.CompositeSections.map (fun s => s.StartTime)))
    (hbound : ∀ t ∈ st.NewMontage.CompositeSections.map (fun s => s.StartTime), t ≤ st.curTime)
    (h : sequencesLoop IsCompatible AssetSkeleton Names LoopTimes l k st = .ok st') :
    List.Pairwise (fun a b : ℚ => a ≤ b)
      (st'.NewMontage.CompositeSections.map (fun s => s.StartTime)) := by
  induction l generalizing k st with
  | nil =>
    simp [sequencesLoop] at h
    subst h
    exact hsorted
  | cons a rest ih =>
    unfold sequencesLoop at h
    split at h
    · cases h
    · rename_i st1 hb
      obtain ⟨htimes, _⟩ := sequencesLoopBody_sections _ _ _ _ _ _ _ _ hb
      have hcur := sequencesLoopBody_curTime _ _ _ _ _ _ _ _ hb
      have hlen : 0 ≤ segmentLength IsCompatible AssetSkeleton LoopTimes k a := by
        apply segmentLength_nonneg
        intro s hs
        exact hnonneg s (by rw [hs]; exact List.mem_cons_self _ _)
      apply ih (k + 1) st1 (fun s hs => hnonneg s (List.mem_cons_of_mem _ hs)) _ _ h
      · rw [htimes, List.pairwise_append]
        refine ⟨hsorted, ?_, ?_⟩
        · split_ifs <;> simp
        · intro x hx y hy
          split_ifs at hy
          · simp only [List.mem_singleton] at hy
            rw [hy]
            exact hbound x hx
          · simp at hy
      · intro t ht
        rw [htimes, List.mem_append] at ht
        rw [hcur]
        rcases ht with ht | ht
        · have := hbound t ht
          linarith
        · split_ifs at ht
          · simp only [List.mem_singleton] at ht
            rw [ht]
            linarith
          · simp at ht

theorem CreateDynamicMontageOfSequences_first_valid
    (IsCompatible : USkeleton → Option USkeleton → Bool)
    (SequencesIn : List (Option UAnimSequence)) (Names : List FName) (LoopTimes : List Int)
    (AnimSlot : FName) (BlendIn BlendOut BlendOutTriggerTime : ℚ) (EnableAutoBlendOut : Bool)
    (M : UAnimMontage)
    (h : CreateDynamicMontageOfSequences IsCompatible SequencesIn Names LoopTimes AnimSlot
      BlendIn BlendOut BlendOutTriggerTime EnableAutoBlendOut = .ok (some M)) :
    ∃ first AssetSkeleton, SequencesIn.head? = some (some first) ∧
      first.Skeleton = some AssetSkeleton := by
  unfold CreateDynamicMontageOfSequences at h
  cases SequencesIn with
  | nil => simp at h
  | cons a rest =>
    cases a with
    | none => simp at h
    | some first =>
      cases hs : first.Skeleton with
      | none => simp [hs] at h
      | some AssetSkeleton => exact ⟨first, AssetSkeleton, rfl, hs⟩

theorem CreateDynamicMontageOfSequences_returns
    (IsCompatible : USkeleton → Option USkeleton → Bool)
    (SequencesIn : List (Option UAnimSequence)) (first : UAnimSequence)
    (AssetSkeleton : USkeleton) (Names : List FName) (LoopTimes : List Int) (AnimSlot : FName)
    (BlendIn BlendOut BlendOutTriggerTime : ℚ) (EnableAutoBlendOut : Bool)
    (hfirst : SequencesIn.head? = some (some first))
    (hskel : first.Skeleton = some AssetSkeleton) (hN : NAME_None ∉ Names) :
    ∃ M, CreateDynamicMontageOfSequences IsCompatible SequencesIn Names LoopTimes AnimSlot
      BlendIn BlendOut BlendOutTriggerTime EnableAutoBlendOut = .ok (some M) := by
  rcases CreateDynamicMontageOfSequences_run IsCompatible SequencesIn first AssetSkeleton Names
      LoopTimes AnimSlot BlendIn BlendOut BlendOutTriggerTime EnableAutoBlendOut hfirst hskel with
    ⟨e, hloop, _⟩ | ⟨_, M0, _, hres, _⟩
  · obtain ⟨st', hst'⟩ := sequencesLoop_total IsCompatible AssetSkeleton Names LoopTimes
      SequencesIn 0 _ hN (initialLoopState_used AssetSkeleton AnimSlot)
    rw [hst'] at hloop
    cases hloop
  · exact ⟨M0, hres⟩

theorem addsSection_eq_startsSection (IsCompatible : USkeleton → Option USkeleton → Bool)
    (AssetSkeleton : USkeleton) (SequencesIn : List (Option UAnimSequence))
    (Names : List FName) (k : Nat) (a : Option UAnimSequence) (used : List FName)
    (ha : SequencesIn[k]? = some a)
    (hused : ∀ n, used.contains n = true ↔
      ∃ j, j < k ∧ acceptedAt IsCompatible AssetSkeleton SequencesIn j = true ∧
        Names[j]? = some n) :
    addsSection IsCompatible AssetSkeleton Names k a used
      = startsSection IsCompatible AssetSkeleton SequencesIn Names k := by
  unfold addsSection startsSection acceptedAt
  simp only [ha, Option.join, Option.some_bind]
  congr 1
  cases hname : Names[k]? with
  | none => rfl
  | some n =>
    simp only
    rw [Bool.eq_iff_iff]
    simp only [Bool.not_eq_true', List.all_eq_true, List.mem_range, Bool.and_eq_false_imp]
    constructor
    · intro hnot j hj hacc
      by_contra hne
      have hnj : Names[j]? = some n := by simpa using hne
      have : used.contains n = true := (hused n).mpr ⟨j, hj, hacc, hnj⟩
      rw [hnot] at this
      cases this
    · intro hall
      by_contra hne
      have hc : used.contains n = true := by simpa using hne
      obtain ⟨j, hj, hacc, hnj⟩ := (hused n).mp hc
      have := hall j hj hacc
      simp [hnj] at this

theorem sequencesLoopBody_stateAt (IsCompatible : USkeleton → Option USkeleton → Bool)
    (AssetSkeleton : USkeleton) (SequencesIn : List (Option UAnimSequence))
    (Names : List FName) (LoopTimes : List Int) (k : Nat) (a : Option UAnimSequence)
    (st st' : SequencesLoopState) (ha : SequencesIn[k]? = some a)
    (hinv : loopStateAt IsCompatible AssetSkeleton SequencesIn Names LoopTimes k st)
    (h : sequencesLoopBody IsCompatible AssetSkeleton Names LoopTimes k a st = .ok st') :
    loopStateAt IsCompatible AssetSkeleton SequencesIn Names LoopTimes (k + 1) st' := by
  obtain ⟨hcur, hused, hsecs, t, others, htracks, hsegs⟩ := hinv
  obtain ⟨htimes, hused'⟩ := sequencesLoopBody_sections _ _ _ _ _ _ _ _ h
  have hcur' := sequencesLoopBody_curTime _ _ _ _ _ _ _ _ h
  have htr' := sequencesLoopBody_tracks _ _ _ _ _ _ _ _ _ _ htracks h
  have hadds := addsSection_eq_startsSection IsCompatible AssetSkeleton SequencesIn Names k a
    st.usedSections ha hused
  have hjoin : (SequencesIn[k]?).join = a := by simp [ha, Option.join]
  have hacc : acceptedAt IsCompatible AssetSkeleton SequencesIn k
      = accepted IsCompatible AssetSkeleton a := by
    unfold acceptedAt; rw [hjoin]
  refine ⟨?_, ?_, ?_, _, others, htr', ?_⟩
  · rw [hcur', hcur]
    unfold curTimeAt
    rw [Finset.sum_range_succ, hjoin]
  · intro n
    rw [hused']
    unfold usedAfter
    rw [hadds]
    constructor
    · intro hc
      by_cases hs : startsSection IsCompatible AssetSkeleton SequencesIn Names k = true
      · simp only [hs, ↓reduceIte] at hc
        cases hname : Names[k]? with
        | none =>
          simp only [hname] at hc
          obtain ⟨j, hj, hja, hjn⟩ := (hused n).mp hc
          exact ⟨j, Nat.lt_succ_of_lt hj, hja, hjn⟩
        | some m =>
          simp only [hname, List.contains_cons, Bool.or_eq_true, beq_iff_eq] at hc
          rcases hc with hc | hc
          · refine ⟨k, Nat.lt_succ_self k, ?_, by rw [hname, hc]⟩
            unfold startsSection at hs
            simp only [Bool.and_eq_true] at hs
            exact hs.1
          · obtain ⟨j, hj, hja, hjn⟩ := (hused n).mp (by simpa using hc)
            exact ⟨j, Nat.lt_succ_of_lt hj, hja, hjn⟩
      · simp only [hs, Bool.false_eq_true, ↓reduceIte] at hc
        obtain ⟨j, hj, hja, hjn⟩ := (hused n).mp hc
        exact ⟨j, Nat.lt_succ_of_lt hj, hja, hjn⟩
    · rintro ⟨j, hj, hja, hjn⟩
      by_cases hjk : j < k
      · have hc : st.usedSections.contains n = true := (hused n).mpr ⟨j, hjk, hja, hjn⟩
        split_ifs
        · split
          · simp only [List.contains_cons, Bool.or_eq_true]
            exact Or.inr hc
          · exact hc
        · exact hc
      · have hjeq : j = k := by omega
        subst hjeq
        by_cases hs : startsSection IsCompatible AssetSkeleton SequencesIn Names j = true
        · simp only [hs, ↓reduceIte, hjn, List.contains_cons, Bool.or_eq_true, beq_self_eq_true,
            true_or]
        · simp only [hs, Bool.false_eq_true, ↓reduceIte]
          rw [← hadds] at hs
          unfold addsSection at hs
          rw [← hacc, hja, hjn] at hs
          simpa using hs
  · rw [htimes, hsecs, List.range_succ, List.filterMap_append, hadds, hcur]
    congr 1
    by_cases hs : startsSection IsCompatible AssetSkeleton SequencesIn Names k = true
    · simp [hs]
    · simp [hs]
  · simp only [List.map_append, hsegs, List.range_succ, List.filterMap_append]
    congr 1
    simp only [List.filterMap_cons, List.filterMap_nil, hacc, hjoin, hcur]
    cases a with
    | none => simp [stitchedSegments, accepted]
    | some s =>
      by_cases hc : IsCompatible AssetSkeleton s.Skeleton = true
      · simp [stitchedSegments, accepted, hc]
      · simp only [Bool.not_eq_true] at hc
        simp [stitchedSegments, accepted, hc]

theorem sequencesLoop_stateAt (IsCompatible : USkeleton → Option USkeleton → Bool)
    (AssetSkeleton : USkeleton) (SequencesIn : List (Option UAnimSequence))
    (Names : List FName) (LoopTimes : List Int) (l : List (Option UAnimSequence)) (k : Nat)
    (st st' : SequencesLoopState) (hk : k ≤ SequencesIn.length) (hl : SequencesIn.drop k = l)
    (hinv : loopStateAt IsCompatible AssetSkeleton SequencesIn Names LoopTimes k st)
    (h : sequencesLoop IsCompatible AssetSkeleton Names LoopTimes l k st = .ok st') :
    loopStateAt IsCompatible AssetSkeleton SequencesIn Names LoopTimes SequencesIn.length st' := by
  induction l generalizing k st with
  | nil =>
    simp [sequencesLoop] at h
    subst h
    have hk' : SequencesIn.length ≤ k := by
      simpa using hl
    have hkeq : k = SequencesIn.length := Nat.le_antisymm hk hk'
    rw [← hkeq]
    exact hinv
  | cons a rest ih =>
    have hk : k < SequencesIn.length := by
      by_contra hn
      rw [List.drop_eq_nil_of_le (Nat.le_of_not_lt hn)] at hl
      cases hl
    have ha : SequencesIn[k]? = some a := by
      rw [List.getElem?_eq_getElem hk]
      have := List.drop_eq_getElem_cons hk
      rw [hl] at this
      simp only [List.cons.injEq] at this
      rw [this.1]
    have hrest : SequencesIn.drop (k + 1) = rest := by
      have := List.drop_eq_getElem_cons hk
      rw [hl] at this
      simp only [List.cons.injEq] at this
      exact this.2.symm
    unfold sequencesLoop at h
    split at h
    · cases h
    · rename_i st1 hb
      exact ih (k + 1) st1 hk hrest (sequencesLoopBody_stateAt _ _ _ _ _ _ _ _ _ ha hinv hb) h

theorem filterMap_range_length {β : Type} (p : Nat → Bool) (f : Nat → β) (n : Nat) :
    ((List.range n).filterMap (fun i => if p i then some (f i) else none)).length
      = ((List.range n).filter p).length := by
  induction n with
  | zero => simp
  | succ n ih =>
    rw [List.range_succ, List.filterMap_append, List.filter_append, List.length_append,
      List.length_append, ih]
    by_cases hp : p n = true
    · simp [hp]
    · simp [hp]

theorem filterMap_range_getElem? {β : Type} (p : Nat → Bool) (f : Nat → β) (n i : Nat)
    (hi : i < n) (hp : p i = true) :
    ((List.range n).filterMap (fun i => if p i then some (f i) else none))[
      ((List.range i).filter p).length]? = some (f i) := by
  induction n with
  | zero => omega
  | succ n ih =>
    rw [List.range_succ, List.filterMap_append]
    by_cases hlt : i < n
    · have h := ih hlt
      have hlen : ((List.range i).filter p).length
          < ((List.range n).filterMap (fun i => if p i then some (f i) else none)).length := by
        by_contra hn
        rw [List.getElem?_eq_none (Nat.le_of_not_lt hn)] at h
        cases h
      rw [List.getElem?_append_left hlen]
      exact h
    · have hieq : i = n := by omega
      subst hieq
      rw [List.getElem?_append_right (by rw [filterMap_range_length])]
      rw [filterMap_range_length]
      simp [hp]

/-! ## Theorems: math helpers -/

section MathTheorems

variable {K : Type} [LinearOrderedField K] [FloorRing K]

/-- C1: `ShortestRotationPath` returns the shortest signed rotation from start
to end: the result `r` has `|r| ≤ 180`, turning the start angle by `r` reaches
the end angle modulo 360, and `r = 0` whenever the two angles are congruent
modulo 360. -/
theorem ShortestRotationPath_shortest (startRotation endRotation : K) :
    |ShortestRotationPath startRotation endRotation| ≤ 180 ∧
    ClampAxis (startRotation + ShortestRotationPath startRotation endRotation)
      = ClampAxis endRotation ∧
    ((∃ k : ℤ, endRotation = startRotation + 360 * (k : K)) →
      ShortestRotationPath startRotation endRotation = 0) := by
  refine ⟨ShortestRotationPath_abs_le _ _, ShortestRotationPath_reaches _ _, ?_⟩
  rintro ⟨k, hk⟩
  apply ShortestRotationPath_same
  rw [hk, ClampAxis_add_int_mul]

end MathTheorems

/-- C6: `FindEdgeOf2DSquare` returns a point on the edge of the rectangle: for a
size with positive `X` and `Y` and every angle, the returned point lies in
`[0, X] × [0, Y]` and one of its coordinates is on the border.  It holds for
every value of the engine's `PI` and every tangent function. -/
theorem FindEdgeOf2DSquare_on_edge {K : Type} [LinearOrderedField K] [FloorRing K] (PI : K) (Tan : K → K) (TheSize : FVector2D K)
    (TheAngle : K) (hX : 0 < TheSize.X) (hY : 0 < TheSize.Y) :
    0 ≤ (FindEdgeOf2DSquare PI Tan TheSize TheAngle).X ∧
    (FindEdgeOf2DSquare PI Tan TheSize TheAngle).X ≤ TheSize.X ∧
    0 ≤ (FindEdgeOf2DSquare PI Tan TheSize TheAngle).Y ∧
    (FindEdgeOf2DSquare PI Tan TheSize TheAngle).Y ≤ TheSize.Y ∧
    ((FindEdgeOf2DSquare PI Tan TheSize TheAngle).X = 0 ∨
      (FindEdgeOf2DSquare PI Tan TheSize TheAngle).X = TheSize.X ∨
      (FindEdgeOf2DSquare PI Tan TheSize TheAngle).Y = 0 ∨
      (FindEdgeOf2DSquare PI Tan TheSize TheAngle).Y = TheSize.Y) := by
  unfold FindEdgeOf2DSquare
  simp only
  generalize Tan _ = t
  have hxr : 0 < TheSize.X / 2 := by positivity
  have hyr : 0 < TheSize.Y / 2 := by positivity
  by_cases hin : |TheSize.X / 2 * t| ≤ TheSize.Y / 2
  · obtain ⟨h1, h2⟩ := abs_le.mp hin
    simp only [hin, ↓reduceIte]
    split_ifs
    all_goals simp only
    · refine ⟨by linarith, by linarith, by linarith, by linarith, Or.inr (Or.inl ?_)⟩
      ring
    · refine ⟨by linarith, by linarith, by linarith, by linarith, Or.inl ?_⟩
      ring
    · refine ⟨by linarith, by linarith, by linarith, by linarith, Or.inr (Or.inl ?_)⟩
      ring
    · refine ⟨by linarith, by linarith, by linarith, by linarith, Or.inl ?_⟩
      ring
  · obtain ⟨h1, h2⟩ := abs_le.mp (abs_div_le_of_not_abs_mul_le _ _ t hxr hyr hin)
    simp only [hin, ↓reduceIte]
    split_ifs
    all_goals simp only
    · refine ⟨by linarith, by linarith, by linarith, by linarith, Or.inr (Or.inr (Or.inr ?_))⟩
      ring
    · refine ⟨by linarith, by linarith, by linarith, by linarith, Or.inr (Or.inr (Or.inl ?_))⟩
      ring
    · refine ⟨by linarith, by linarith, by linarith, by linarith, Or.inr (Or.inr (Or.inr ?_))⟩
      ring
    · refine ⟨by linarith, by linarith, by linarith, by linarith, Or.inr (Or.inr (Or.inl ?_))⟩
      ring

/-- C6, on an example over the rationals (with 22/7 for `PI` and a tangent
function that is constantly 1/2): the point returned for a 4 by 2 rectangle
lies on the rectangle's edge. -/
theorem FindEdgeOf2DSquare_on_edge_witness :
    0 ≤ (FindEdgeOf2DSquare (22 / 7 : ℚ) (fun _ => 1 / 2) ⟨4, 2⟩ 30).X ∧
    (FindEdgeOf2DSquare (22 / 7 : ℚ) (fun _ => 1 / 2) ⟨4, 2⟩ 30).X ≤ (⟨4, 2⟩ : FVector2D ℚ).X ∧
    0 ≤ (FindEdgeOf2DSquare (22 / 7 : ℚ) (fun _ => 1 / 2) ⟨4, 2⟩ 30).Y ∧
    (FindEdgeOf2DSquare (22 / 7 : ℚ) (fun _ => 1 / 2) ⟨4, 2⟩ 30).Y ≤ (⟨4, 2⟩ : FVector2D ℚ).Y ∧
    ((FindEdgeOf2DSquare (22 / 7 : ℚ) (fun _ => 1 / 2) ⟨4, 2⟩ 30).X = 0 ∨
      (FindEdgeOf2DSquare (22 / 7 : ℚ) (fun _ => 1 / 2) ⟨4, 2⟩ 30).X = (⟨4, 2⟩ : FVector2D ℚ).X ∨
      (FindEdgeOf2DSquare (22 / 7 : ℚ) (fun _ => 1 / 2) ⟨4, 2⟩ 30).Y = 0 ∨
      (FindEdgeOf2DSquare (22 / 7 : ℚ) (fun _ => 1 / 2) ⟨4, 2⟩ 30).Y = (⟨4, 2⟩ : FVector2D ℚ).Y) :=
  FindEdgeOf2DSquare_on_edge (22 / 7 : ℚ) (fun _ => 1 / 2) ⟨4, 2⟩ 30
    (show (0 : ℚ) < 4 by norm_num) (show (0 : ℚ) < 2 by norm_num)

/-- C7: `FindScreenEdgeLocationForWorldLocation` clamps an off-screen target to
the screen edge box: when the engine objects it needs are there, the viewport
has a positive size, `EdgePercent ≥ 0` and the projected screen position lies
outside `[0, ViewportSize.X] × [0, ViewportSize.Y]`, the call sets
`bIsOnScreen = false` and returns a position on the boundary of the rectangle
centred at the viewport centre with half-extents `ViewportCenter * EdgePercent`.
It holds for every value that the engine's `Atan2`, `cosf` and `sinf` give. -/
theorem FindScreenEdgeLocationForWorldLocation_clamps {K : Type} [LinearOrderedField K]
    [FloorRing K] (ctx : ScreenContext K) (PlayerCharacter : ACharacter K)
    (InLocation : FVector K) (EdgePercent : K) (OutScreenPosition P : FVector2D K)
    (hEngine : ctx.GEngine = true) (hWorld : ctx.World = true)
    (hController : ctx.PlayerController = true)
    (hCharacter : ctx.PlayerCharacter = some PlayerCharacter)
    (hX : 0 < ctx.ViewportSize.X) (hY : 0 < ctx.ViewportSize.Y) (hE : 0 ≤ EdgePercent)
    (hP : ctx.ProjectWorldLocationToScreen InLocation
      (behindCameraScreenPosition ctx PlayerCharacter InLocation EdgePercent OutScreenPosition)
        = P)
    (hOff : ¬ (0 ≤ P.X ∧ P.X ≤ ctx.ViewportSize.X ∧ 0 ≤ P.Y ∧ P.Y ≤ ctx.ViewportSize.Y)) :
    (FindScreenEdgeLocationForWorldLocation ctx InLocation EdgePercent
        OutScreenPosition).bIsOnScreen = false ∧
    |(FindScreenEdgeLocationForWorldLocation ctx InLocation EdgePercent
        OutScreenPosition).OutScreenPosition.X - ctx.ViewportSize.X / 2|
      ≤ ctx.ViewportSize.X / 2 * EdgePercent ∧
    |(FindScreenEdgeLocationForWorldLocation ctx InLocation EdgePercent
        OutScreenPosition).OutScreenPosition.Y - ctx.ViewportSize.Y / 2|
      ≤ ctx.ViewportSize.Y / 2 * EdgePercent ∧
    (|(FindScreenEdgeLocationForWorldLocation ctx InLocation EdgePercent
        OutScreenPosition).OutScreenPosition.X - ctx.ViewportSize.X / 2|
      = ctx.ViewportSize.X / 2 * EdgePercent ∨
     |(FindScreenEdgeLocationForWorldLocation ctx InLocation EdgePercent
        OutScreenPosition).OutScreenPosition.Y - ctx.ViewportSize.Y / 2|
      = ctx.ViewportSize.Y / 2 * EdgePercent) := by
  have hbx : 0 ≤ ctx.ViewportSize.X / 2 * EdgePercent := by positivity
  have hby : 0 ≤ ctx.ViewportSize.Y / 2 * EdgePercent := by positivity
  unfold FindScreenEdgeLocationForWorldLocation
  simp only [hEngine, hWorld, hController, hCharacter, Bool.not_true, Bool.false_eq_true,
    ↓reduceIte, hP]
  unfold clampToScreenEdge
  have hOff' : ¬ (P.X ≥ 0 ∧ P.X ≤ ctx.ViewportSize.X ∧ P.Y ≥ 0 ∧ P.Y ≤ ctx.ViewportSize.Y) := hOff
  simp only [hOff', ↓reduceIte, add_sub_cancel_right]
  generalize ctx.cosf _ = Cos
  generalize -ctx.sinf _ = Sin
  generalize Cos / Sin = m
  generalize ctx.ViewportSize.X / 2 * EdgePercent = bx at hbx ⊢
  generalize ctx.ViewportSize.Y / 2 * EdgePercent = by_ at hby ⊢
  refine ⟨trivial, ?_⟩
  split_ifs with hc h1 h2 h1 h2
  · have hlt : bx < |by_ / m| := lt_of_lt_of_le h1 (le_abs_self _)
    have := abs_mul_lt_of_lt_abs_div by_ bx m hby hbx hlt
    simp only [abs_of_nonneg hbx]
    exact ⟨le_refl _, this.le, Or.inl trivial⟩
  · have hlt : bx < |by_ / m| := by
      have : bx < -(by_ / m) := by linarith
      exact lt_of_lt_of_le this (neg_le_abs _)
    have := abs_mul_lt_of_lt_abs_div by_ bx m hby hbx hlt
    simp only [abs_neg, neg_mul, abs_of_nonneg hbx]
    exact ⟨le_refl _, this.le, Or.inl trivial⟩
  · simp only [abs_of_nonneg hby]
    refine ⟨abs_le.mpr ⟨by linarith, by linarith⟩, le_refl _, Or.inr trivial⟩
  · have hlt : bx < |by_ / m| := by
      have : bx < -by_ / m := h1
      rw [neg_div] at this
      exact lt_of_lt_of_le this (neg_le_abs _)
    have := abs_mul_lt_of_lt_abs_div by_ bx m hby hbx hlt
    simp only [abs_of_nonneg hbx]
    exact ⟨le_refl _, this.le, Or.inl trivial⟩
  · have hlt : bx < |by_ / m| := by
      have : -by_ / m < -bx := h2
      rw [neg_div] at this
      have : bx < by_ / m := by linarith
      exact lt_of_lt_of_le this (le_abs_self _)
    have := abs_mul_lt_of_lt_abs_div by_ bx m hby hbx hlt
    simp only [abs_neg, neg_mul, abs_of_nonneg hbx]
    exact ⟨le_refl _, this.le, Or.inl trivial⟩
  · simp only [abs_neg, abs_of_nonneg hby]
    refine ⟨abs_le.mpr ⟨by linarith, by linarith⟩, le_refl _, Or.inr trivial⟩

/-- C7, on an example: the target of `exampleScreenContext` projects to
(700, 700), below the 800 by 600 screen; with `EdgePercent = 9/10` the call
reports it off screen and returns a position on the boundary of the edge box. -/
theorem FindScreenEdgeLocationForWorldLocation_clamps_witness :
    (FindScreenEdgeLocationForWorldLocation exampleScreenContext ⟨10, 0, 0⟩ (9 / 10)
        ⟨0, 0⟩).bIsOnScreen = false ∧
    |(FindScreenEdgeLocationForWorldLocation exampleScreenContext ⟨10, 0, 0⟩ (9 / 10)
        ⟨0, 0⟩).OutScreenPosition.X - exampleScreenContext.ViewportSize.X / 2|
      ≤ exampleScreenContext.ViewportSize.X / 2 * (9 / 10) ∧
    |(FindScreenEdgeLocationForWorldLocation exampleScreenContext ⟨10, 0, 0⟩ (9 / 10)
        ⟨0, 0⟩).OutScreenPosition.Y - exampleScreenContext.ViewportSize.Y / 2|
      ≤ exampleScreenContext.ViewportSize.Y / 2 * (9 / 10) ∧
    (|(FindScreenEdgeLocationForWorldLocation exampleScreenContext ⟨10, 0, 0⟩ (9 / 10)
        ⟨0, 0⟩).OutScreenPosition.X - exampleScreenContext.ViewportSize.X / 2|
      = exampleScreenContext.ViewportSize.X / 2 * (9 / 10) ∨
     |(FindScreenEdgeLocationForWorldLocation exampleScreenContext ⟨10, 0, 0⟩ (9 / 10)
        ⟨0, 0⟩).OutScreenPosition.Y - exampleScreenContext.ViewportSize.Y / 2|
      = exampleScreenContext.ViewportSize.Y / 2 * (9 / 10)) :=
  FindScreenEdgeLocationForWorldLocation_clamps exampleScreenContext
    { ActorForwardVector := ⟨1, 0, 0⟩, ActorLocation := ⟨0, 0, 0⟩ } ⟨10, 0, 0⟩ (9 / 10) ⟨0, 0⟩
    ⟨700, 700⟩ rfl rfl rfl rfl
    (by norm_num [exampleScreenContext]) (by norm_num [exampleScreenContext]) (by norm_num) rfl
    (by norm_num [exampleScreenContext])

/-- C11: whenever `RotationInterpolate` reports `atTarget`, the output
`newRotation` equals `ClampAxis(inTarget)`, whatever `RotationsEqual` decides;
and `atTarget` is reported whenever the shortest path from the current to the
target rotation is within `checkTolerance` or is not longer than the movement
`|speed * deltaTime|`. -/
theorem RotationInterpolate_atTarget {K : Type} [LinearOrderedField K] [FloorRing K]
    (RotationsEqual : K → K → K → Bool)
    (inCurrent inTarget deltaTime speed checkTolerance : K) :
    ((RotationInterpolate RotationsEqual inCurrent inTarget deltaTime speed
        checkTolerance).atTarget = true →
      (RotationInterpolate RotationsEqual inCurrent inTarget deltaTime speed
        checkTolerance).newRotation = ClampAxis inTarget) ∧
    (|ShortestRotationPath inCurrent inTarget| ≤ checkTolerance ∨
        |speed * deltaTime| ≥ |ShortestRotationPath inCurrent inTarget| →
      (RotationInterpolate RotationsEqual inCurrent inTarget deltaTime speed
        checkTolerance).atTarget = true) := by
  unfold RotationInterpolate
  simp only [ShortestRotationPath_clamp]
  have hmove : ∀ d : K, (d = -1 ∨ d = 1) → |d * speed * deltaTime| = |speed * deltaTime| := by
    rintro d (rfl | rfl)
    · rw [show (-1 : K) * speed * deltaTime = -(speed * deltaTime) by ring, abs_neg]
    · rw [one_mul]
  have hdir : |(if ShortestRotationPath inCurrent inTarget < 0 then (-1 : K) else 1) * speed *
      deltaTime| = |speed * deltaTime| := by
    apply hmove
    split_ifs
    · exact Or.inl rfl
    · exact Or.inr rfl
  generalize (if ShortestRotationPath inCurrent inTarget < 0 then (-1 : K) else 1) = d at hdir
  rw [hdir]
  by_cases h1 : |ShortestRotationPath inCurrent inTarget| ≤ checkTolerance
  · simp only [h1, ↓reduceIte, implies_true, and_self]
  · by_cases h2 : |speed * deltaTime| ≥ |ShortestRotationPath inCurrent inTarget|
    · simp only [h1, h2, ↓reduceIte, implies_true, and_self]
    · simp only [h1, h2, ↓reduceIte, or_self, false_implies, and_true]
      intro h
      split_ifs at h ⊢ with h3
      · rfl
      · exact absurd h h3

/-- C18: `RotationInterpolate` moves along the shortest path and never
overshoots: when the movement `speed * deltaTime` is non-negative and shorter
than the path `p` from the clamped current to the clamped target rotation,
`|p|` exceeds `checkTolerance` and `atTarget` is reported false, then
`newRotation` lies in `[0, 360)` and the shortest path from `newRotation` to the
clamped target is `p - sign(p) * speed * deltaTime`; so the remaining distance
is `|p| - speed * deltaTime` and it keeps the sign of `p`. -/
theorem RotationInterpolate_no_overshoot {K : Type} [LinearOrderedField K] [FloorRing K]
    (RotationsEqual : K → K → K → Bool)
    (inCurrent inTarget deltaTime speed checkTolerance : K)
    (hmove : 0 ≤ speed * deltaTime)
    (hshort : speed * deltaTime < |ShortestRotationPath (ClampAxis inCurrent) (ClampAxis inTarget)|)
    (htol : checkTolerance < |ShortestRotationPath (ClampAxis inCurrent) (ClampAxis inTarget)|)
    (hat : (RotationInterpolate RotationsEqual inCurrent inTarget deltaTime speed
      checkTolerance).atTarget = false) :
    0 ≤ (RotationInterpolate RotationsEqual inCurrent inTarget deltaTime speed
      checkTolerance).newRotation ∧
    (RotationInterpolate RotationsEqual inCurrent inTarget deltaTime speed
      checkTolerance).newRotation < 360 ∧
    ShortestRotationPath (RotationInterpolate RotationsEqual inCurrent inTarget deltaTime speed
        checkTolerance).newRotation (ClampAxis inTarget)
      = ShortestRotationPath (ClampAxis inCurrent) (ClampAxis inTarget)
        - (if ShortestRotationPath (ClampAxis inCurrent) (ClampAxis inTarget) < 0 then -1 else 1)
          * speed * deltaTime ∧
    |ShortestRotationPath (RotationInterpolate RotationsEqual inCurrent inTarget deltaTime speed
        checkTolerance).newRotation (ClampAxis inTarget)|
      = |ShortestRotationPath (ClampAxis inCurrent) (ClampAxis inTarget)| - speed * deltaTime ∧
    (ShortestRotationPath (RotationInterpolate RotationsEqual inCurrent inTarget deltaTime speed
        checkTolerance).newRotation (ClampAxis inTarget) < 0 ↔
      ShortestRotationPath (ClampAxis inCurrent) (ClampAxis inTarget) < 0) := by
  obtain ⟨r1, r2⟩ := ShortestRotationPath_range (ClampAxis inCurrent) (ClampAxis inTarget)
  have hcases := ShortestRotationPath_cases (ClampAxis inCurrent) (ClampAxis inTarget)
  simp only [ClampAxis_idem] at hcases
  generalize hp : ShortestRotationPath (ClampAxis inCurrent) (ClampAxis inTarget) = p at *
  have h1 : ¬ |p| ≤ checkTolerance := not_le.mpr htol
  have hnew : (RotationInterpolate RotationsEqual inCurrent inTarget deltaTime speed
      checkTolerance).newRotation
      = ClampAxis (ClampAxis inCurrent + (if p < 0 then -1 else 1) * speed * deltaTime) := by
    unfold RotationInterpolate at hat ⊢
    simp only [hp, h1, ↓reduceIte] at hat ⊢
    have h2 : ¬ |(if p < 0 then (-1 : K) else 1) * speed * deltaTime| ≥ |p| := by
      rw [not_le]
      split_ifs
      · rw [show (-1 : K) * speed * deltaTime = -(speed * deltaTime) by ring, abs_neg,
          abs_of_nonneg hmove]
        exact hshort
      · rw [one_mul, abs_of_nonneg hmove]
        exact hshort
    generalize (if p < 0 then (-1 : K) else 1) = d at h2 hat ⊢
    simp only [h2, ↓reduceIte] at hat ⊢
    by_cases h3 : RotationsEqual (ClampAxis inTarget)
        (ClampAxis (ClampAxis inCurrent + d * speed * deltaTime)) checkTolerance = true
    · simp [h3] at hat
    · simp [h3]
  rw [hnew]
  generalize hd : (if p < 0 then (-1 : K) else 1) = d
  have hq : ShortestRotationPath (ClampAxis (ClampAxis inCurrent + d * speed * deltaTime))
      (ClampAxis inTarget) = p - d * speed * deltaTime := by
    have hrange : -180 ≤ p - d * speed * deltaTime ∧ p - d * speed * deltaTime < 180 := by
      rw [← hd]
      split_ifs with hneg
      · rw [abs_of_neg hneg] at hshort
        constructor <;> linarith
      · rw [abs_of_nonneg (not_lt.mp hneg)] at hshort
        constructor <;> linarith
    have hfl : ClampAxis (ClampAxis inCurrent + d * speed * deltaTime)
        = ClampAxis inCurrent + d * speed * deltaTime
          - 360 * ((⌊(ClampAxis inCurrent + d * speed * deltaTime) / 360⌋ : ℤ) : K) := rfl
    have key : ∀ j : ℤ, p = ClampAxis inTarget - ClampAxis inCurrent + 360 * (j : K) →
        ShortestRotationPath (ClampAxis (ClampAxis inCurrent + d * speed * deltaTime))
          (ClampAxis inTarget) = p - d * speed * deltaTime := by
      intro j hj
      apply ShortestRotationPath_unique _ _ _
        (⌊(ClampAxis inCurrent + d * speed * deltaTime) / 360⌋ - j) hrange.1 hrange.2
      rw [ClampAxis_idem, ClampAxis_idem, hfl, hj]
      push_cast
      ring
    rcases hcases with h' | h' | h'
    · exact key 0 (by rw [h']; simp)
    · exact key 1 (by rw [h']; simp)
    · exact key (-1) (by rw [h']; push_cast; ring)
  refine ⟨ClampAxis_nonneg _, ClampAxis_lt _, hq, ?_, ?_⟩
  · rw [hq, ← hd]
    split_ifs with hneg
    · rw [abs_of_neg hneg] at hshort ⊢
      rw [abs_of_neg (by linarith)]
      ring
    · rw [abs_of_nonneg (not_lt.mp hneg)] at hshort ⊢
      rw [abs_of_nonneg (by linarith)]
      ring
  · rw [hq, ← hd]
    split_ifs with hneg
    · rw [abs_of_neg hneg] at hshort
      constructor
      · intro _; exact hneg
      · intro _; linarith
    · rw [abs_of_nonneg (not_lt.mp hneg)] at hshort
      constructor
      · intro h; linarith
      · intro h; exact absurd h hneg

/-- C18, on an example over the rationals: from 350 degrees towards 10 degrees
(path 20) with speed 5 for one second, with a `RotationsEqual` that never holds:
the new rotation is 355 and the remaining path is 15. -/
theorem RotationInterpolate_no_overshoot_witness :
    ShortestRotationPath (RotationInterpolate (fun _ _ _ => false) (350 : ℚ) 10 1 5
        (1 / 10)).newRotation (ClampAxis 10)
      = ShortestRotationPath (ClampAxis (350 : ℚ)) (ClampAxis 10)
        - (if ShortestRotationPath (ClampAxis (350 : ℚ)) (ClampAxis 10) < 0 then -1 else 1)
          * 5 * 1 := by
  have hp : ShortestRotationPath (ClampAxis (350 : ℚ)) (ClampAxis 10) = 20 := by
    rw [ShortestRotationPath_clamp]
    apply ShortestRotationPath_unique (350 : ℚ) 10 20 (-1) (by norm_num) (by norm_num)
    rw [ClampAxis_of_mem 10 (by norm_num) (by norm_num),
      ClampAxis_of_mem 350 (by norm_num) (by norm_num)]
    norm_num
  exact (RotationInterpolate_no_overshoot (fun _ _ _ => false) (350 : ℚ) 10 1 5 (1 / 10)
    (by norm_num) (by rw [hp]; norm_num) (by rw [hp]; norm_num)
    (by
      unfold RotationInterpolate
      simp only [hp]
      norm_num)).2.2.1

/-- C16, counterexample: in `exampleBehindContext` the target (-10, 0, 0) is
behind the character (the dot product is -1) and the projection of `InLocation`
leaves the behind-camera position (-400, 800) in place; it is off screen, so the
edge clamping replaces it and the returned position is (400/3, 400), whose `Y`
is not `EdgePercent * ViewportCenter.X * 2 = 800`. -/
theorem FindScreenEdgeLocationForWorldLocation_behind_counterexample :
    FVector.DotProduct (⟨1, 0, 0⟩ : FVector ℚ)
        (exampleBehindContext.GetSafeNormal ⟨-10 - 0, 0 - 0, 0 - 0⟩) < 0 ∧
    behindCameraScreenPosition exampleBehindContext
        { ActorForwardVector := ⟨1, 0, 0⟩, ActorLocation := ⟨0, 0, 0⟩ } ⟨-10, 0, 0⟩ 1 ⟨0, 0⟩
      = ⟨-400, 800⟩ ∧
    (FindScreenEdgeLocationForWorldLocation exampleBehindContext ⟨-10, 0, 0⟩ 1
        ⟨0, 0⟩).OutScreenPosition = ⟨400 / 3, 400⟩ ∧
    (FindScreenEdgeLocationForWorldLocation exampleBehindContext ⟨-10, 0, 0⟩ 1
        ⟨0, 0⟩).OutScreenPosition.Y ≠ 1 * (exampleBehindContext.ViewportSize.X / 2) * 2 := by
  have hB : behindCameraScreenPosition exampleBehindContext
      { ActorForwardVector := ⟨1, 0, 0⟩, ActorLocation := ⟨0, 0, 0⟩ } ⟨-10, 0, 0⟩ 1 ⟨0, 0⟩
      = ⟨-400, 800⟩ := by
    simp only [behindCameraScreenPosition, exampleBehindContext, FVector.DotProduct]
    norm_num
  have hR : (FindScreenEdgeLocationForWorldLocation exampleBehindContext ⟨-10, 0, 0⟩ 1
      ⟨0, 0⟩).OutScreenPosition = ⟨400 / 3, 400⟩ := by
    have hctx : exampleBehindContext.PlayerCharacter
        = some { ActorForwardVector := ⟨1, 0, 0⟩, ActorLocation := ⟨0, 0, 0⟩ } := rfl
    have hproj : ∀ v p, exampleBehindContext.ProjectWorldLocationToScreen v p = p :=
      fun _ _ => rfl
    unfold FindScreenEdgeLocationForWorldLocation
    simp only [hctx, hproj, hB]
    simp only [exampleBehindContext, clampToScreenEdge]
    norm_num
  refine ⟨?_, hB, hR, ?_⟩
  · simp only [exampleBehindContext, FVector.DotProduct]
    norm_num
  · rw [hR]
    simp only [exampleBehindContext]
    norm_num

/-- C16, as amended: for a target behind the player character (negative dot
product) the position computed in the behind-camera branch has
`Y = EdgePercent * ViewportCenter.X * 2`; it is the content of
`OutScreenPosition` when `InLocation` is projected, and the call returns what
the on-screen test and the edge clamping make of the content after that
projection.  The returned position is the behind-camera one when the
projection leaves it unwritten and it lies within the viewport rectangle; the
target is then reported on screen. -/
theorem FindScreenEdgeLocationForWorldLocation_behind {K : Type} [LinearOrderedField K]
    [FloorRing K] (ctx : ScreenContext K) (PlayerCharacter : ACharacter K)
    (InLocation : FVector K) (EdgePercent : K) (OutScreenPosition : FVector2D K)
    (hEngine : ctx.GEngine = true) (hWorld : ctx.World = true)
    (hController : ctx.PlayerController = true)
    (hCharacter : ctx.PlayerCharacter = some PlayerCharacter)
    (hBehind : FVector.DotProduct PlayerCharacter.ActorForwardVector
      (ctx.GetSafeNormal ⟨InLocation.X - PlayerCharacter.ActorLocation.X,
        InLocation.Y - PlayerCharacter.ActorLocation.Y,
        InLocation.Z - PlayerCharacter.ActorLocation.Z⟩) < 0) :
    (behindCameraScreenPosition ctx PlayerCharacter InLocation EdgePercent OutScreenPosition).Y
      = EdgePercent * (ctx.ViewportSize.X / 2) * 2 ∧
    FindScreenEdgeLocationForWorldLocation ctx InLocation EdgePercent OutScreenPosition
      = clampToScreenEdge ctx EdgePercent
          (ctx.ProjectWorldLocationToScreen InLocation
            (behindCameraScreenPosition ctx PlayerCharacter InLocation EdgePercent
              OutScreenPosition)) ∧
    (ctx.ProjectWorldLocationToScreen InLocation
          (behindCameraScreenPosition ctx PlayerCharacter InLocation EdgePercent
            OutScreenPosition)
        = behindCameraScreenPosition ctx PlayerCharacter InLocation EdgePercent
            OutScreenPosition →
      0 ≤ (behindCameraScreenPosition ctx PlayerCharacter InLocation EdgePercent
          OutScreenPosition).X →
      (behindCameraScreenPosition ctx PlayerCharacter InLocation EdgePercent
          OutScreenPosition).X ≤ ctx.ViewportSize.X →
      0 ≤ (behindCameraScreenPosition ctx PlayerCharacter InLocation EdgePercent
          OutScreenPosition).Y →
      (behindCameraScreenPosition ctx PlayerCharacter InLocation EdgePercent
          OutScreenPosition).Y ≤ ctx.ViewportSize.Y →
      (FindScreenEdgeLocationForWorldLocation ctx InLocation EdgePercent
          OutScreenPosition).OutScreenPosition
        = behindCameraScreenPosition ctx PlayerCharacter InLocation EdgePercent
            OutScreenPosition ∧
      (FindScreenEdgeLocationForWorldLocation ctx InLocation EdgePercent
          OutScreenPosition).bIsOnScreen = true) := by
  have hrun : FindScreenEdgeLocationForWorldLocation ctx InLocation EdgePercent OutScreenPosition
      = clampToScreenEdge ctx EdgePercent
          (ctx.ProjectWorldLocationToScreen InLocation
            (behindCameraScreenPosition ctx PlayerCharacter InLocation EdgePercent
              OutScreenPosition)) := by
    unfold FindScreenEdgeLocationForWorldLocation
    simp only [hEngine, hWorld, hController, hCharacter, Bool.not_true, Bool.false_eq_true,
      ↓reduceIte]
  refine ⟨?_, hrun, ?_⟩
  · unfold behindCameraScreenPosition
    simp only [hBehind, decide_True, ↓reduceIte]
  · intro hkeep h1 h2 h3 h4
    rw [hrun, hkeep]
    unfold clampToScreenEdge
    have hon : (behindCameraScreenPosition ctx PlayerCharacter InLocation EdgePercent
          OutScreenPosition).X ≥ 0 ∧
        (behindCameraScreenPosition ctx PlayerCharacter InLocation EdgePercent
          OutScreenPosition).X ≤ ctx.ViewportSize.X ∧
        (behindCameraScreenPosition ctx PlayerCharacter InLocation EdgePercent
          OutScreenPosition).Y ≥ 0 ∧
        (behindCameraScreenPosition ctx PlayerCharacter InLocation EdgePercent
          OutScreenPosition).Y ≤ ctx.ViewportSize.Y := ⟨h1, h2, h3, h4⟩
    simp only [hon, and_self, ↓reduceIte]

/-- C16, as amended, on an example: in `exampleBehindOnScreenContext` the
target (-10, 0, 0) is behind the character, the behind-camera position is
(200, 400), the projection of the target leaves it unwritten and it is on
screen, so it is the returned position. -/
theorem FindScreenEdgeLocationForWorldLocation_behind_witness :
    (FindScreenEdgeLocationForWorldLocation exampleBehindOnScreenContext ⟨-10, 0, 0⟩ (1 / 2)
        ⟨0, 0⟩).OutScreenPosition
      = behindCameraScreenPosition exampleBehindOnScreenContext
          { ActorForwardVector := ⟨1, 0, 0⟩, ActorLocation := ⟨0, 0, 0⟩ } ⟨-10, 0, 0⟩ (1 / 2)
          ⟨0, 0⟩ ∧
    (FindScreenEdgeLocationForWorldLocation exampleBehindOnScreenContext ⟨-10, 0, 0⟩ (1 / 2)
        ⟨0, 0⟩).bIsOnScreen = true := by
  have hB : behindCameraScreenPosition exampleBehindOnScreenContext
      { ActorForwardVector := ⟨1, 0, 0⟩, ActorLocation := ⟨0, 0, 0⟩ } ⟨-10, 0, 0⟩ (1 / 2) ⟨0, 0⟩
      = ⟨200, 400⟩ := by
    simp only [behindCameraScreenPosition, exampleBehindOnScreenContext, FVector.DotProduct]
    norm_num
  have h := FindScreenEdgeLocationForWorldLocation_behind exampleBehindOnScreenContext
    { ActorForwardVector := ⟨1, 0, 0⟩, ActorLocation := ⟨0, 0, 0⟩ } ⟨-10, 0, 0⟩ (1 / 2) ⟨0, 0⟩
    rfl rfl rfl rfl
    (by simp only [exampleBehindOnScreenContext, FVector.DotProduct]; norm_num)
  apply h.2.2
  · rw [hB]
    simp only [exampleBehindOnScreenContext]
    norm_num
  · rw [hB]; norm_num
  · rw [hB]; simp only [exampleBehindOnScreenContext]; norm_num
  · rw [hB]; norm_num
  · rw [hB]; simp only [exampleBehindOnScreenContext]; norm_num

/-! ## Theorems: animation helpers -/

/-- C2: for a non-empty `SequencesIn` whose first element is a valid sequence
with a skeleton, every montage returned by `CreateDynamicMontageOfSequences` has
`SequenceLength` equal to the sum, over the accepted (non-null,
skeleton-compatible) indices, of `SequenceLength(i) * L(i)` with
`L(i) = max(1, LoopTimes[i])` for a valid index of `LoopTimes` and `1` otherwise;
and a montage is returned at least whenever no section name is `NAME_None`. -/
theorem CreateDynamicMontageOfSequences_SequenceLength
    (IsCompatible : USkeleton → Option USkeleton → Bool)
    (SequencesIn : List (Option UAnimSequence)) (first : UAnimSequence)
    (AssetSkeleton : USkeleton) (Names : List FName) (LoopTimes : List Int) (AnimSlot : FName)
    (BlendIn BlendOut BlendOutTriggerTime : ℚ) (EnableAutoBlendOut : Bool)
    (hfirst : SequencesIn.head? = some (some first))
    (hskel : first.Skeleton = some AssetSkeleton) :
    (∀ M, CreateDynamicMontageOfSequences IsCompatible SequencesIn Names LoopTimes AnimSlot
          BlendIn BlendOut BlendOutTriggerTime EnableAutoBlendOut = .ok (some M) →
        M.SequenceLength = claimedSequenceLength IsCompatible AssetSkeleton SequencesIn LoopTimes) ∧
    (NAME_None ∉ Names →
      ∃ M, CreateDynamicMontageOfSequences IsCompatible SequencesIn Names LoopTimes AnimSlot
          BlendIn BlendOut BlendOutTriggerTime EnableAutoBlendOut = .ok (some M)) := by
  rcases CreateDynamicMontageOfSequences_run IsCompatible SequencesIn first AssetSkeleton Names
      LoopTimes AnimSlot BlendIn BlendOut BlendOutTriggerTime EnableAutoBlendOut hfirst hskel with
    ⟨e, hloop, hres⟩ | ⟨st, M0, hloop, hres, hlen, _, _⟩
  · constructor
    · intro M hM
      rw [hres] at hM
      cases hM
    · intro hN
      obtain ⟨st', hst'⟩ := sequencesLoop_total IsCompatible AssetSkeleton Names LoopTimes
        SequencesIn 0 _ hN (initialLoopState_used AssetSkeleton AnimSlot)
      rw [hst'] at hloop
      cases hloop
  · constructor
    · intro M hM
      rw [hres] at hM
      cases hM
      rw [hlen, sequencesLoop_curTime _ _ _ _ _ _ _ _ hloop, claimedSequenceLength_eq]
      simp [initialLoopState]
    · intro _
      exact ⟨M0, hres⟩

/-- C2, on an example: three elements, the second one null, the looping counts
2 and 1 for the two accepted sequences of lengths 2 and 3 give the length 7. -/
theorem CreateDynamicMontageOfSequences_SequenceLength_witness :
    ∃ M, CreateDynamicMontageOfSequences (fun a b => b == some a)
        [some ⟨some ⟨1⟩, 2⟩, none, some ⟨some ⟨1⟩, 3⟩] ["Intro", "Gap", "Outro"] [2, 5, 0]
        NAME_None (-1) (-1) (-1) true = .ok (some M) ∧ M.SequenceLength = 7 := by
  obtain ⟨hlen, htotal⟩ := CreateDynamicMontageOfSequences_SequenceLength (fun a b => b == some a)
    [some ⟨some ⟨1⟩, 2⟩, none, some ⟨some ⟨1⟩, 3⟩] ⟨some ⟨1⟩, 2⟩ ⟨1⟩ ["Intro", "Gap", "Outro"]
    [2, 5, 0] NAME_None (-1) (-1) (-1) true rfl rfl
  obtain ⟨M, hM⟩ := htotal (by decide)
  refine ⟨M, hM, ?_⟩
  rw [hlen M hM]
  simp [claimedSequenceLength, Finset.sum_range_succ]
  norm_num

/-- C3: in every montage returned by `CreateDynamicMontageOfSequences` the
segments of slot track 0 are the accepted input sequences in input order,
stitched end to end: the first segment starts at 0, every later segment starts
at the previous segment's `StartPos` plus the previous sequence length times its
`LoopingCount`, and every segment has `AnimStartTime` 0, `AnimEndTime` equal to
its sequence length, play rate 1 and `LoopingCount ≥ 1`; and a montage is
returned at least whenever no section name is `NAME_None`. -/
theorem CreateDynamicMontageOfSequences_segments
    (IsCompatible : USkeleton → Option USkeleton → Bool)
    (SequencesIn : List (Option UAnimSequence)) (first : UAnimSequence)
    (AssetSkeleton : USkeleton) (Names : List FName) (LoopTimes : List Int) (AnimSlot : FName)
    (BlendIn BlendOut BlendOutTriggerTime : ℚ) (EnableAutoBlendOut : Bool)
    (hfirst : SequencesIn.head? = some (some first))
    (hskel : first.Skeleton = some AssetSkeleton) :
    (∀ M, CreateDynamicMontageOfSequences IsCompatible SequencesIn Names LoopTimes AnimSlot
          BlendIn BlendOut BlendOutTriggerTime EnableAutoBlendOut = .ok (some M) →
        ∃ track, M.SlotAnimTracks[0]? = some track ∧
          track.AnimTrack.AnimSegments.map (fun g => g.AnimReference)
            = SequencesIn.filter (accepted IsCompatible AssetSkeleton) ∧
          (∀ g, track.AnimTrack.AnimSegments.head? = some g → g.StartPos = 0) ∧
          (∀ i a b, track.AnimTrack.AnimSegments[i]? = some a →
            track.AnimTrack.AnimSegments[i + 1]? = some b →
            ∃ s, a.AnimReference = some s ∧
              b.StartPos = a.StartPos + s.SequenceLength * (a.LoopingCount : ℚ)) ∧
          (∀ g ∈ track.AnimTrack.AnimSegments,
            ∃ s, g.AnimReference = some s ∧ g.AnimStartTime = 0 ∧
              g.AnimEndTime = s.SequenceLength ∧ g.AnimPlayRate = 1 ∧ 1 ≤ g.LoopingCount)) ∧
    (NAME_None ∉ Names →
      ∃ M, CreateDynamicMontageOfSequences IsCompatible SequencesIn Names LoopTimes AnimSlot
          BlendIn BlendOut BlendOutTriggerTime EnableAutoBlendOut = .ok (some M)) := by
  rcases CreateDynamicMontageOfSequences_run IsCompatible SequencesIn first AssetSkeleton Names
      LoopTimes AnimSlot BlendIn BlendOut BlendOutTriggerTime EnableAutoBlendOut hfirst hskel with
    ⟨e, hloop, hres⟩ | ⟨st, M0, hloop, hres, _, htracks, _⟩
  · constructor
    · intro M hM
      rw [hres] at hM
      cases hM
    · intro hN
      obtain ⟨st', hst'⟩ := sequencesLoop_total IsCompatible AssetSkeleton Names LoopTimes
        SequencesIn 0 _ hN (initialLoopState_used AssetSkeleton AnimSlot)
      rw [hst'] at hloop
      cases hloop
  · refine ⟨?_, fun _ => ⟨M0, hres⟩⟩
    intro M hM
    rw [hres] at hM
    cases hM
    have h0 : (initialLoopState AssetSkeleton AnimSlot).NewMontage.SlotAnimTracks
        = [{ SlotName := if AnimSlot ≠ NAME_None then AnimSlot else "DefaultSlot"
             AnimTrack := { AnimSegments := [] } }] := rfl
    have ht := sequencesLoop_tracks _ _ _ _ _ _ _ _ _ _ h0 hloop
    rw [← htracks] at ht
    refine ⟨_, by rw [ht]; rfl, ?_, ?_, ?_, ?_⟩
    · simpa using stitchedSegments_refs IsCompatible AssetSkeleton LoopTimes SequencesIn 0 0
    · intro g hg
      simp only [List.nil_append] at hg
      exact stitchedSegments_head _ _ _ _ _ _ _ hg
    · intro i a b ha hb
      simp only [List.nil_append] at ha hb
      exact chain_getElem? followsOn _ (stitchedSegments_chain _ _ _ _ _ _) i a b ha hb
    · intro g hg
      simp only [List.nil_append] at hg
      exact stitchedSegments_fields _ _ _ _ _ _ _ hg

/-- C3, on an example: the null element is skipped and the two accepted
sequences give the segments starting at 0 and at 4. -/
theorem CreateDynamicMontageOfSequences_segments_witness :
    ∃ M track, CreateDynamicMontageOfSequences (fun a b => b == some a)
        [some ⟨some ⟨1⟩, 2⟩, none, some ⟨some ⟨1⟩, 3⟩] ["Intro", "Gap", "Outro"] [2, 5, 0]
        NAME_None (-1) (-1) (-1) true = .ok (some M) ∧
      M.SlotAnimTracks[0]? = some track ∧
      track.AnimTrack.AnimSegments.map (fun g => g.AnimReference)
        = [some ⟨some ⟨1⟩, 2⟩, some ⟨some ⟨1⟩, 3⟩] := by
  obtain ⟨hseg, htotal⟩ := CreateDynamicMontageOfSequences_segments (fun a b => b == some a)
    [some ⟨some ⟨1⟩, 2⟩, none, some ⟨some ⟨1⟩, 3⟩] ⟨some ⟨1⟩, 2⟩ ⟨1⟩ ["Intro", "Gap", "Outro"]
    [2, 5, 0] NAME_None (-1) (-1) (-1) true rfl rfl
  obtain ⟨M, hM⟩ := htotal (by decide)
  obtain ⟨track, ht, hrefs, _⟩ := hseg M hM
  refine ⟨M, track, hM, ht, ?_⟩
  rw [hrefs]
  simp [accepted]

/-- C4, the failing input: when the first element of `SequencesIn` is null the
call reads the skeleton through the null pointer instead of returning
`nullptr`. -/
theorem CreateDynamicMontageOfSequences_null_first
    (IsCompatible : USkeleton → Option USkeleton → Bool)
    (rest : List (Option UAnimSequence)) (Names : List FName) (LoopTimes : List Int)
    (AnimSlot : FName) (BlendIn BlendOut BlendOutTriggerTime : ℚ) (EnableAutoBlendOut : Bool) :
    CreateDynamicMontageOfSequences IsCompatible (none :: rest) Names LoopTimes AnimSlot
      BlendIn BlendOut BlendOutTriggerTime EnableAutoBlendOut = .error Fault.nullDereference := by
  rfl

/-- C8: `GetMontageSectionTimeLeftFromPos` always returns, and never a negative
value: it returns 0 when the montage is null or has no section named
`SectionName`; otherwise, with `i` the index of the (first) section of that
name, it returns `max(0, start time of section i+1 - Position)` when section
`i+1` exists and `max(0, SequenceLength - Position)` when section `i` is the
last one. -/
theorem GetMontageSectionTimeLeftFromPos_spec (MontageIn : Option UAnimMontage)
    (SectionName : FName) (Position : ℚ) :
    ∃ v, GetMontageSectionTimeLeftFromPos MontageIn SectionName Position = .ok v ∧ 0 ≤ v ∧
      (MontageIn = none → v = 0) ∧
      (∀ M, MontageIn = some M →
        (∀ s ∈ M.CompositeSections, s.SectionName ≠ SectionName) → v = 0) ∧
      (∀ M i s, MontageIn = some M → M.CompositeSections[i]? = some s →
        s.SectionName = SectionName →
        (∀ j t, j < i → M.CompositeSections[j]? = some t → t.SectionName ≠ SectionName) →
        (∀ next, M.CompositeSections[i + 1]? = some next →
          v = max 0 (next.StartTime - Position)) ∧
        (M.CompositeSections[i + 1]? = none → v = max 0 (M.SequenceLength - Position))) := by
  cases MontageIn with
  | none =>
    refine ⟨0, rfl, le_refl _, fun _ => rfl, ?_, ?_⟩
    · intro M hM; cases hM
    · intro M i s hM; cases hM
  | some M =>
    unfold GetMontageSectionTimeLeftFromPos
    simp only
    by_cases hnone : M.GetSectionIndex SectionName = INDEX_NONE
    · simp only [hnone, ↓reduceIte]
      refine ⟨0, rfl, le_refl _, (fun h => by cases h), fun _ _ _ => rfl, ?_⟩
      intro M' i s hM hs hn _
      cases hM
      exact absurd hnone (GetSectionIndex_ne_none M SectionName s (List.getElem?_mem hs) hn)
    · simp only [hnone, ↓reduceIte]
      by_cases hvalid : M.IsValidSectionIndex (M.GetSectionIndex SectionName + 1)
      · simp only [hvalid, ↓reduceIte]
        obtain ⟨h0, hlt⟩ := hvalid
        have hlt' : (M.GetSectionIndex SectionName + 1).toNat < M.CompositeSections.length := by
          omega
        obtain ⟨x, hget⟩ : ∃ x, M.CompositeSections[(M.GetSectionIndex SectionName + 1).toNat]?
            = some x := ⟨_, List.getElem?_eq_getElem hlt'⟩
        have harr : M.GetAnimCompositeSection (M.GetSectionIndex SectionName + 1) = .ok x := by
          unfold UAnimMontage.GetAnimCompositeSection arrayAt
          simp only [h0, ↓reduceIte, hget]
        simp only [harr, bind, Except.bind, pure, Except.pure]
        refine ⟨_, rfl, le_max_left _ _, (fun h => by cases h), ?_, ?_⟩
        · intro M' hM hall
          cases hM
          exact absurd (GetSectionIndex_eq_none M SectionName hall) hnone
        · intro M' i s hM hs hn hfirst
          cases hM
          have hi := GetSectionIndex_eq_first M SectionName i s hs hn hfirst
          have hk : (M.GetSectionIndex SectionName + 1).toNat = i + 1 := by omega
          rw [hk] at hget
          constructor
          · intro next hnext
            rw [hget] at hnext
            cases hnext
            rfl
          · intro hn'
            rw [hget] at hn'
            cases hn'
      · simp only [hvalid, ↓reduceIte]
        refine ⟨_, rfl, le_max_left _ _, (fun h => by cases h), ?_, ?_⟩
        · intro M' hM hall
          cases hM
          exact absurd (GetSectionIndex_eq_none M SectionName hall) hnone
        · intro M' i s hM hs hn hfirst
          cases hM
          have hi := GetSectionIndex_eq_first M SectionName i s hs hn hfirst
          rw [hi] at hvalid
          constructor
          · intro next hnext
            exfalso
            apply hvalid
            have hlt : i + 1 < M.CompositeSections.length := by
              by_contra hlt
              rw [List.getElem?_eq_none (Nat.le_of_not_lt hlt)] at hnext
              cases hnext
            constructor <;> omega
          · intro _
            rfl

/-- C9: for a source montage with a skeleton, `CreateDynamicMontageFromMontage`
returns a new montage whose `BlendIn` time, `BlendOut` time and
`BlendOutTriggerTime` each equal the override argument when that is different
from -1 and the source's value when it is -1, and whose `SequenceLength` and
`RateScale` equal the source's. -/
theorem CreateDynamicMontageFromMontage_blend (store : ObjectStore) (MontageIn : Nat)
    (source : UAnimMontage) (AssetSkeleton : USkeleton) (SlotOverride : FName)
    (OverrideBlendIn OverrideBlendOut OverrideBlendOutTriggerTime : ℚ)
    (hsource : store.montages[MontageIn]? = some source)
    (hskel : source.Skeleton = some AssetSkeleton) :
    ∃ store' NewMontage M,
      CreateDynamicMontageFromMontage store (some MontageIn) SlotOverride OverrideBlendIn
        OverrideBlendOut OverrideBlendOutTriggerTime = .ok (store', some NewMontage) ∧
      store'.montages[NewMontage]? = some M ∧
      (OverrideBlendIn ≠ -1 → M.BlendIn.GetBlendTime = OverrideBlendIn) ∧
      (OverrideBlendIn = -1 → M.BlendIn.GetBlendTime = source.BlendIn.GetBlendTime) ∧
      (OverrideBlendOut ≠ -1 → M.BlendOut.GetBlendTime = OverrideBlendOut) ∧
      (OverrideBlendOut = -1 → M.BlendOut.GetBlendTime = source.BlendOut.GetBlendTime) ∧
      (OverrideBlendOutTriggerTime ≠ -1 → M.BlendOutTriggerTime = OverrideBlendOutTriggerTime) ∧
      (OverrideBlendOutTriggerTime = -1 → M.BlendOutTriggerTime = source.BlendOutTriggerTime) ∧
      M.SequenceLength = source.SequenceLength ∧ M.RateScale = source.RateScale := by
  refine ⟨_, _, copiedMontage source AssetSkeleton SlotOverride OverrideBlendIn OverrideBlendOut
      OverrideBlendOutTriggerTime,
    CreateDynamicMontageFromMontage_run store MontageIn source AssetSkeleton
      SlotOverride OverrideBlendIn OverrideBlendOut OverrideBlendOutTriggerTime hsource hskel,
    by simp, ?_⟩
  simp only [copiedMontage, FAlphaBlend.GetBlendTime]
  refine ⟨?_, ?_, ?_, ?_, ?_, ?_, ?_, ?_⟩ <;> first | trivial | (intro h; simp [h])

/-- C9, on an example: copying `exampleSourceMontage` with the blend-in time
overridden to 1/10 and the other two overrides left at -1. -/
theorem CreateDynamicMontageFromMontage_blend_witness :
    ∃ store' NewMontage M,
      CreateDynamicMontageFromMontage { montages := [exampleSourceMontage] } (some 0)
        "FullBody" (1 / 10) (-1) (-1) = .ok (store', some NewMontage) ∧
      store'.montages[NewMontage]? = some M ∧
      M.BlendIn.GetBlendTime = 1 / 10 ∧ M.BlendOut.GetBlendTime = 1 / 2 ∧
      M.BlendOutTriggerTime = -1 ∧ M.SequenceLength = 5 := by
  obtain ⟨store', NewMontage, M, hrun, hM, hin, _, _, hout, _, htrig, hlen, _⟩ :=
    CreateDynamicMontageFromMontage_blend { montages := [exampleSourceMontage] } 0
      exampleSourceMontage ⟨1⟩ "FullBody" (1 / 10) (-1) (-1) rfl rfl
  exact ⟨store', NewMontage, M, hrun, hM, hin (by norm_num), hout rfl, htrig rfl, hlen⟩

/-- C10: for a source montage with a skeleton, `CreateDynamicMontageFromMontage`
leaves the source montage object as it was (so its `SlotAnimTracks` and
`CompositeSections` are unchanged) and returns a new montage object whose
`CompositeSections` equal the source's and whose `SlotAnimTracks` have the same
length and the same animation tracks position by position; every `SlotName` of
the result equals `SlotOverride` when that is not `NAME_None`, and the source
track's `SlotName` when it is. -/
theorem CreateDynamicMontageFromMontage_frame (store : ObjectStore) (MontageIn : Nat)
    (source : UAnimMontage) (AssetSkeleton : USkeleton) (SlotOverride : FName)
    (OverrideBlendIn OverrideBlendOut OverrideBlendOutTriggerTime : ℚ)
    (hsource : store.montages[MontageIn]? = some source)
    (hskel : source.Skeleton = some AssetSkeleton) :
    ∃ store' NewMontage M,
      CreateDynamicMontageFromMontage store (some MontageIn) SlotOverride OverrideBlendIn
        OverrideBlendOut OverrideBlendOutTriggerTime = .ok (store', some NewMontage) ∧
      store'.montages[NewMontage]? = some M ∧
      NewMontage ≠ MontageIn ∧
      store'.montages[MontageIn]? = some source ∧
      M.CompositeSections = source.CompositeSections ∧
      M.SlotAnimTracks.length = source.SlotAnimTracks.length ∧
      (∀ i : Nat, (M.SlotAnimTracks[i]?).map (fun t : FSlotAnimationTrack => t.AnimTrack)
        = (source.SlotAnimTracks[i]?).map (fun t : FSlotAnimationTrack => t.AnimTrack)) ∧
      (SlotOverride ≠ NAME_None → ∀ t ∈ M.SlotAnimTracks, t.SlotName = SlotOverride) ∧
      (SlotOverride = NAME_None → ∀ i : Nat, (M.SlotAnimTracks[i]?).map (fun t : FSlotAnimationTrack => t.SlotName)
        = (source.SlotAnimTracks[i]?).map (fun t : FSlotAnimationTrack => t.SlotName)) := by
  have hlt : MontageIn < store.montages.length := by
    by_contra hn
    rw [List.getElem?_eq_none (Nat.le_of_not_lt hn)] at hsource
    cases hsource
  refine ⟨_, _, copiedMontage source AssetSkeleton SlotOverride OverrideBlendIn OverrideBlendOut
      OverrideBlendOutTriggerTime,
    CreateDynamicMontageFromMontage_run store MontageIn source AssetSkeleton
      SlotOverride OverrideBlendIn OverrideBlendOut OverrideBlendOutTriggerTime hsource hskel,
    by simp, by omega, ?_, rfl, ?_⟩
  · simp only [List.getElem?_append_left hlt, hsource]
  · simp only [copiedMontage]
    by_cases h : SlotOverride = NAME_None
    · refine ⟨by simp [h], ?_, fun h' => absurd h h', ?_⟩
      · intro i
        simp [h]
      · intro _ i
        simp [h]
    · have h' : SlotOverride ≠ NAME_None := h
      refine ⟨by simp [h'], ?_, ?_, fun h'' => absurd h'' h⟩
      · intro i
        rw [if_pos h', List.getElem?_map, Option.map_map]
        rfl
      · intro _ t ht
        rw [if_pos h', List.mem_map] at ht
        obtain ⟨x, _, hx⟩ := ht
        rw [← hx]

/-- C10, on an example: copying `exampleSourceMontage`, stored at address 0,
with the slot override `FullBody`. -/
theorem CreateDynamicMontageFromMontage_frame_witness :
    ∃ store' NewMontage M,
      CreateDynamicMontageFromMontage { montages := [exampleSourceMontage] } (some 0)
        "FullBody" (1 / 10) (-1) (-1) = .ok (store', some NewMontage) ∧
      store'.montages[NewMontage]? = some M ∧
      store'.montages[0]? = some exampleSourceMontage ∧
      M.CompositeSections = exampleSourceMontage.CompositeSections ∧
      M.SlotAnimTracks.map (fun t : FSlotAnimationTrack => t.SlotName) = ["FullBody"] := by
  obtain ⟨store', NewMontage, M, hrun, hM, _, hsrc, hsec, hlen, _, hslot, _⟩ :=
    CreateDynamicMontageFromMontage_frame { montages := [exampleSourceMontage] } 0
      exampleSourceMontage ⟨1⟩ "FullBody" (1 / 10) (-1) (-1) rfl rfl
  refine ⟨store', NewMontage, M, hrun, hM, hsrc, hsec, ?_⟩
  have hslot' := hslot (by decide)
  have hlen' : M.SlotAnimTracks.length = 1 := hlen
  match hM' : M.SlotAnimTracks, hlen' with
  | [t], _ =>
    have := hslot' t (by rw [hM']; exact List.mem_singleton_self t)
    simp [this]

/-- C12, the failing input: the montage has one section, named `Section2`, and
a section is added with `NAME_None`.  The existence check looks for `NAME_None`,
finds nothing, and the section is appended under the default name `Section2`:
the call returns index 1 and the montage has two sections with the same name. -/
theorem AddAnimCompositeSection_duplicate_default_name :
    (AddAnimCompositeSection exampleNamedSectionMontage NAME_None 1).2 = 1 ∧
    (AddAnimCompositeSection exampleNamedSectionMontage NAME_None 1).1.CompositeSections.map
        (fun s => s.SectionName) = ["Section2", "Section2"] := by
  constructor
  · decide
  · decide

/-- C13, the failing input: the montage has one section, `Start`, without a
link, and a section is added with `NAME_None`.  The call succeeds (index 1) and
the new section gets the default name `Section2`, but the previous section's
`NextSectionName` is assigned `InSectionName`, so it is still `NAME_None`
after the call and not `Section2`. -/
theorem AddAnimCompositeSection_default_name_not_linked :
    (AddAnimCompositeSection exampleUnlinkedSectionMontage NAME_None 2).2 = 1 ∧
    (AddAnimCompositeSection exampleUnlinkedSectionMontage NAME_None 2).1.CompositeSections.map
        (fun s => (s.SectionName, s.NextSectionName))
      = [("Start", NAME_None), ("Section2", NAME_None)] := by
  refine ⟨by decide, by decide⟩

/-- C17, the failing input: two compatible sequences with the section names
`NAME_None` and `Section1`.  The first section is added under the default name
`Section1`; for the second sequence `AddAnimCompositeSection` finds that name
taken and returns `INDEX_NONE`, and `CompositeSections[sectionIndex]` is an
access outside the array. -/
theorem CreateDynamicMontageOfSequences_section_index_fault :
    CreateDynamicMontageOfSequences (fun a b => b == some a)
      [some ⟨some ⟨1⟩, 2⟩, some ⟨some ⟨1⟩, 3⟩] [NAME_None, "Section1"] [] NAME_None
      (-1) (-1) (-1) true = .error Fault.indexOutOfBounds := by
  rfl

/-- C14: the sections of a montage built by `CreateDynamicMontageOfSequences`
are in the order of time: when the sequences have non-negative
`SequenceLength` and the call returns a montage, the start times of its
`CompositeSections` are non-decreasing along the array. -/
theorem CreateDynamicMontageOfSequences_sections_sorted
    (IsCompatible : USkeleton → Option USkeleton → Bool)
    (SequencesIn : List (Option UAnimSequence)) (Names : List FName) (LoopTimes : List Int)
    (AnimSlot : FName) (BlendIn BlendOut BlendOutTriggerTime : ℚ) (EnableAutoBlendOut : Bool)
    (M : UAnimMontage)
    (hnonneg : ∀ s, some s ∈ SequencesIn → 0 ≤ s.SequenceLength)
    (hM : CreateDynamicMontageOfSequences IsCompatible SequencesIn Names LoopTimes AnimSlot
      BlendIn BlendOut BlendOutTriggerTime EnableAutoBlendOut = .ok (some M)) :
    ∀ (i j : Nat) (a b : FCompositeSection), i < j → M.CompositeSections[i]? = some a →
      M.CompositeSections[j]? = some b → a.StartTime ≤ b.StartTime := by
  obtain ⟨first, AssetSkeleton, hfirst, hskel⟩ :=
    CreateDynamicMontageOfSequences_first_valid _ _ _ _ _ _ _ _ _ _ hM
  rcases CreateDynamicMontageOfSequences_run IsCompatible SequencesIn first AssetSkeleton Names
      LoopTimes AnimSlot BlendIn BlendOut BlendOutTriggerTime EnableAutoBlendOut hfirst hskel with
    ⟨e, _, hres⟩ | ⟨st, M0, hloop, hres, _, _, hsec⟩
  · rw [hres] at hM
    cases hM
  · rw [hres] at hM
    cases hM
    have hsorted := sequencesLoop_sorted IsCompatible AssetSkeleton Names LoopTimes SequencesIn 0
      (initialLoopState AssetSkeleton AnimSlot) st hnonneg
      (by simp [initialLoopState, UAnimMontage.constructed])
      (by simp [initialLoopState, UAnimMontage.constructed]) hloop
    rw [← hsec, List.pairwise_map, List.pairwise_iff_getElem] at hsorted
    intro i j a b hij ha hb
    have hj : j < M.CompositeSections.length := by
      by_contra hn
      rw [List.getElem?_eq_none (Nat.le_of_not_lt hn)] at hb
      cases hb
    have hi : i < M.CompositeSections.length := Nat.lt_trans hij hj
    rw [List.getElem?_eq_getElem hi] at ha
    rw [List.getElem?_eq_getElem hj] at hb
    cases ha
    cases hb
    exact hsorted i j hi hj hij

/-- C14, on an example: three accepted sequences of lengths 2, 3 and 1 with
three different section names. -/
theorem CreateDynamicMontageOfSequences_sections_sorted_witness :
    ∃ M, CreateDynamicMontageOfSequences (fun a b => b == some a)
        [some ⟨some ⟨1⟩, 2⟩, some ⟨some ⟨1⟩, 3⟩, some ⟨some ⟨1⟩, 1⟩] ["Intro", "Loop", "Outro"]
        [2] NAME_None (-1) (-1) (-1) true = .ok (some M) ∧
      ∀ (i j : Nat) (a b : FCompositeSection), i < j → M.CompositeSections[i]? = some a →
        M.CompositeSections[j]? = some b → a.StartTime ≤ b.StartTime := by
  obtain ⟨M, hM⟩ := CreateDynamicMontageOfSequences_returns (fun a b => b == some a)
    [some ⟨some ⟨1⟩, 2⟩, some ⟨some ⟨1⟩, 3⟩, some ⟨some ⟨1⟩, 1⟩] ⟨some ⟨1⟩, 2⟩ ⟨1⟩
    ["Intro", "Loop", "Outro"] [2] NAME_None (-1) (-1) (-1) true rfl rfl (by decide)
  refine ⟨M, hM, CreateDynamicMontageOfSequences_sections_sorted _ _ _ _ _ _ _ _ _ M ?_ hM⟩
  intro s hs
  simp only [List.mem_cons, Option.some.injEq, List.mem_singleton, List.not_mem_nil,
    or_false] at hs
  rcases hs with rfl | rfl | rfl <;> norm_num

/-- C15: every montage returned by `CreateDynamicMontageOfSequences` has exactly
one section for each index that starts a section (accepted, with a name entry,
the name not used by an earlier accepted index), in index order, and no other
section; the section of such an index `i` starts at the `StartPos` of the
segment created for the sequence at index `i`.  A montage is returned at least
whenever no section name is `NAME_None`. -/
theorem CreateDynamicMontageOfSequences_section_starts
    (IsCompatible : USkeleton → Option USkeleton → Bool)
    (SequencesIn : List (Option UAnimSequence)) (first : UAnimSequence)
    (AssetSkeleton : USkeleton) (Names : List FName) (LoopTimes : List Int) (AnimSlot : FName)
    (BlendIn BlendOut BlendOutTriggerTime : ℚ) (EnableAutoBlendOut : Bool)
    (hfirst : SequencesIn.head? = some (some first))
    (hskel : first.Skeleton = some AssetSkeleton) :
    (∀ M, CreateDynamicMontageOfSequences IsCompatible SequencesIn Names LoopTimes AnimSlot
          BlendIn BlendOut BlendOutTriggerTime EnableAutoBlendOut = .ok (some M) →
        ∃ track, M.SlotAnimTracks[0]? = some track ∧
          M.CompositeSections.length
            = ((List.range SequencesIn.length).filter
                (startsSection IsCompatible AssetSkeleton SequencesIn Names)).length ∧
          ∀ i, i < SequencesIn.length →
            startsSection IsCompatible AssetSkeleton SequencesIn Names i = true →
            ∃ sec seg,
              M.CompositeSections[((List.range i).filter
                (startsSection IsCompatible AssetSkeleton SequencesIn Names)).length]? = some sec ∧
              track.AnimTrack.AnimSegments[((List.range i).filter
                (acceptedAt IsCompatible AssetSkeleton SequencesIn)).length]? = some seg ∧
              seg.AnimReference = (SequencesIn[i]?).join ∧
              sec.StartTime = seg.StartPos) ∧
    (NAME_None ∉ Names →
      ∃ M, CreateDynamicMontageOfSequences IsCompatible SequencesIn Names LoopTimes AnimSlot
          BlendIn BlendOut BlendOutTriggerTime EnableAutoBlendOut = .ok (some M)) := by
  refine ⟨?_, fun hN => CreateDynamicMontageOfSequences_returns IsCompatible SequencesIn first
    AssetSkeleton Names LoopTimes AnimSlot BlendIn BlendOut BlendOutTriggerTime EnableAutoBlendOut
    hfirst hskel hN⟩
  intro M hM
  rcases CreateDynamicMontageOfSequences_run IsCompatible SequencesIn first AssetSkeleton Names
      LoopTimes AnimSlot BlendIn BlendOut BlendOutTriggerTime EnableAutoBlendOut hfirst hskel with
    ⟨e, _, hres⟩ | ⟨st, M0, hloop, hres, _, htr, hsec⟩
  · rw [hres] at hM
    cases hM
  rw [hres] at hM
  cases hM
  have hinit : loopStateAt IsCompatible AssetSkeleton SequencesIn Names LoopTimes 0
      (initialLoopState AssetSkeleton AnimSlot) := by
    refine ⟨by simp [initialLoopState, curTimeAt], ?_, by simp [initialLoopState,
      UAnimMontage.constructed], _, [], rfl, by simp⟩
    intro n
    simp [initialLoopState]
  obtain ⟨_, _, hsecs, t, others, htracks, hsegs⟩ :=
    sequencesLoop_stateAt IsCompatible AssetSkeleton SequencesIn Names LoopTimes SequencesIn 0
      (initialLoopState AssetSkeleton AnimSlot) st (Nat.zero_le _) rfl hinit hloop
  rw [← hsec] at hsecs
  rw [← htr] at htracks
  refine ⟨t, by rw [htracks]; simp, ?_, ?_⟩
  · have := congrArg List.length hsecs
    rw [List.length_map, filterMap_range_length] at this
    exact this
  · intro i hi hs
    have hacc : acceptedAt IsCompatible AssetSkeleton SequencesIn i = true := by
      unfold startsSection at hs
      simp only [Bool.and_eq_true] at hs
      exact hs.1
    have h1 := filterMap_range_getElem?
      (startsSection IsCompatible AssetSkeleton SequencesIn Names)
      (curTimeAt IsCompatible AssetSkeleton SequencesIn LoopTimes) SequencesIn.length i hi hs
    have h2 := filterMap_range_getElem?
      (acceptedAt IsCompatible AssetSkeleton SequencesIn)
      (fun i => ((SequencesIn[i]?).join,
        curTimeAt IsCompatible AssetSkeleton SequencesIn LoopTimes i)) SequencesIn.length i hi hacc
    rw [← hsecs, List.getElem?_map] at h1
    rw [← hsegs, List.getElem?_map] at h2
    cases hsecAt : M.CompositeSections[((List.range i).filter
        (startsSection IsCompatible AssetSkeleton SequencesIn Names)).length]? with
    | none => rw [hsecAt] at h1; cases h1
    | some sec =>
      cases hsegAt : t.AnimTrack.AnimSegments[((List.range i).filter
          (acceptedAt IsCompatible AssetSkeleton SequencesIn)).length]? with
      | none => rw [hsegAt] at h2; cases h2
      | some seg =>
        rw [hsecAt] at h1
        rw [hsegAt] at h2
        simp only [Option.map_some', Option.some.injEq, Prod.mk.injEq] at h1 h2
        exact ⟨sec, seg, rfl, rfl, h2.1, by rw [h1, h2.2]⟩

/-- C15, on an example: four elements, the second one null; the third repeats
the name of the first, so only the first and the fourth start a section.  The
montage has two sections and the second one starts where the segment of the
fourth element (the third segment) starts. -/
theorem CreateDynamicMontageOfSequences_section_starts_witness :
    ∃ M track sec seg, CreateDynamicMontageOfSequences (fun a b => b == some a)
        exampleSequences exampleSectionNames [2] NAME_None (-1) (-1) (-1) true = .ok (some M) ∧
      M.SlotAnimTracks[0]? = some track ∧
      M.CompositeSections.length = 2 ∧
      M.CompositeSections[1]? = some sec ∧
      track.AnimTrack.AnimSegments[2]? = some seg ∧
      seg.AnimReference = some ⟨some ⟨1⟩, 1⟩ ∧
      sec.StartTime = seg.StartPos := by
  obtain ⟨hsections, hreturns⟩ := CreateDynamicMontageOfSequences_section_starts
    (fun a b => b == some a) exampleSequences ⟨some ⟨1⟩, 2⟩ ⟨1⟩ exampleSectionNames [2]
    NAME_None (-1) (-1) (-1) true rfl rfl
  obtain ⟨M, hM⟩ := hreturns (by decide)
  obtain ⟨track, htrack, hlen, hat⟩ := hsections M hM
  obtain ⟨sec, seg, hsec, hseg, href, hstart⟩ := hat 3 (by decide) (by decide)
  have e1 : ((List.range 3).filter (startsSection (fun a b => b == some a) ⟨1⟩
      exampleSequences exampleSectionNames)).length = 1 := by decide
  have e2 : ((List.range 3).filter (acceptedAt (fun a b => b == some a) ⟨1⟩
      exampleSequences)).length = 2 := by decide
  have e3 : ((List.range exampleSequences.length).filter
      (startsSection (fun a b => b == some a) ⟨1⟩ exampleSequences
        exampleSectionNames)).length = 2 := by decide
  rw [e1] at hsec
  rw [e2] at hseg
  rw [e3] at hlen
  exact ⟨M, track, sec, seg, hM, htrack, hlen, hsec, hseg, href, hstart⟩

/-! ## Theorems: object helpers -/

/-- C5, the failing input: `LoadPackageAsync` gave the valid request id 7 and the
engine has delivered the loaded package with the result `Succeeded` through
`OnPackageLoadCompleteCB`; the next `UpdateOperation` still reports the action
as not finished and does not invoke `OnLoaded`. -/
theorem UpdateOperation_after_load_complete :
    ((FLoadPackagePriorityActionBase.construct (fun _ _ => 7) "/Game/Maps/Arena" 0 false
        ⟨"OnArenaLoaded", 1, 42⟩).OnPackageLoadCompleteCB "/Game/Maps/Arena"
        (some ⟨"/Game/Maps/Arena"⟩) EAsyncLoadingResult.Succeeded).UpdateOperation
      = { finished := false, onLoaded := none } := by
  decide

end Ry
